import Mathlib

/-!
Shallow embedding of `openbox/core/highdim/safeopt_advisor.py`
(classes `SetManager` and `SafeOptAdvisor`).

Conventions used throughout:
* NumPy buffers become total functions out of `ℕ` (1-d) or `ℕ × ℕ` (2-d);
  the modelled loops only ever read indices below the grid size.
* Python floats are idealised as exact rationals (`ℚ`).
* Code paths that raise a Python exception are modelled in `Except`.
-/

set_option maxHeartbeats 1600000
set_option maxRecDepth 16000

namespace SafeOptModel

/-- In-place write `f[a] = v` on a 1-d integer buffer. -/
def upd1 (f : ℕ → ℤ) (a : ℕ) (v : ℤ) : ℕ → ℤ := fun x => if x = a then v else f x

/-- State of the buffer after the first `m` iterations (`i = 1 .. m`) of the
1-d loop of `SetManager._presum`: `for i in range(1, size0): tmp[i] += tmp[i-1]`. -/
def presum1Aux (f : ℕ → ℤ) : ℕ → ℕ → ℤ
  | 0 => f
  | m + 1 =>
    let g := presum1Aux f m
    upd1 g (m + 1) (g (m + 1) + g m)

/-- `SetManager._presum`, 1-d branch (`self.dim == 1`). -/
def presum1 (n : ℕ) (f : ℕ → ℤ) : ℕ → ℤ := presum1Aux f (n - 1)

/-- `SetManager._add_range`, 1-d branch: `tmp[l] += 1; if r < size0 - 1: tmp[r+1] -= 1`. -/
def addRange1 (n : ℕ) (f : ℕ → ℤ) (l r : ℕ) : ℕ → ℤ :=
  let f1 := upd1 f l (f l + 1)
  if r < n - 1 then upd1 f1 (r + 1) (f1 (r + 1) - 1) else f1

/-- The additive contribution of one `_add_range(l, r)` call (1-d). -/
def deltaR (n l r x : ℕ) : ℤ :=
  (if x = l then 1 else 0) - (if r < n - 1 ∧ x = r + 1 then 1 else 0)

/-- Brute-force per-cell increment over a 1-d box: the reference loop the
difference array is checked against. -/
def bruteAdd1 (g : ℕ → ℤ) (l r : ℕ) : ℕ → ℤ :=
  fun x => if l ≤ x ∧ x ≤ r then g x + 1 else g x

/-- A sequence of 1-d `_add_range` calls, in order. -/
def addRanges1 (n : ℕ) (L : List (ℕ × ℕ)) (f : ℕ → ℤ) : ℕ → ℤ :=
  L.foldl (fun g p => addRange1 n g p.1 p.2) f

/-- The same sequence done by brute-force per-cell increments. -/
def bruteAdds1 (L : List (ℕ × ℕ)) (g : ℕ → ℤ) : ℕ → ℤ :=
  L.foldl (fun g p => bruteAdd1 g p.1 p.2) g

/-- `SetManager._query_range`, 1-d branch. -/
def queryRange1 (f : ℕ → ℤ) (l r : ℕ) : ℤ :=
  f r - (if l = 0 then 0 else f (l - 1))

/-- In-place write `f[a, b] = v` on a 2-d integer buffer. -/
def upd2 (f : ℕ → ℕ → ℤ) (a b : ℕ) (v : ℤ) : ℕ → ℕ → ℤ :=
  fun x y => if x = a ∧ y = b then v else f x y

/-- State after the first `m` iterations of the row pass of the 2-d
`SetManager._presum`: `for i in range(1, size0): tmp[i, :] += tmp[i-1, :]`. -/
def presumRowsAux (f : ℕ → ℕ → ℤ) : ℕ → ℕ → ℕ → ℤ
  | 0 => f
  | m + 1 =>
    let g := presumRowsAux f m
    fun i j => if i = m + 1 then g (m + 1) j + g m j else g i j

/-- State after the first `m` iterations of the column pass:
`for i in range(1, size1): tmp[:, i] += tmp[:, i-1]`. -/
def presumColsAux (f : ℕ → ℕ → ℤ) : ℕ → ℕ → ℕ → ℤ
  | 0 => f
  | m + 1 =>
    let g := presumColsAux f m
    fun i j => if j = m + 1 then g i (m + 1) + g i m else g i j

/-- `SetManager._presum`, 2-d branch (`else` of `self.dim == 1`). -/
def presum2 (n0 n1 : ℕ) (f : ℕ → ℕ → ℤ) : ℕ → ℕ → ℤ :=
  presumColsAux (presumRowsAux f (n0 - 1)) (n1 - 1)

/-- `SetManager._add_range`, 2-d branch, with the source's nested guards:
`tmp[x1,y1] += 1`; `if x2 < size0-1: tmp[x2+1,y1] -= 1; if y2 < size1-1:
tmp[x2+1,y2+1] += 1`; `if y2 < size1-1: tmp[x1,y2+1] -= 1`. -/
def addRange2 (n0 n1 : ℕ) (f : ℕ → ℕ → ℤ) (l r : ℕ × ℕ) : ℕ → ℕ → ℤ :=
  let f1 := upd2 f l.1 l.2 (f l.1 l.2 + 1)
  let f2 := if r.1 < n0 - 1 then upd2 f1 (r.1 + 1) l.2 (f1 (r.1 + 1) l.2 - 1) else f1
  let f3 := if r.1 < n0 - 1 ∧ r.2 < n1 - 1 then
    upd2 f2 (r.1 + 1) (r.2 + 1) (f2 (r.1 + 1) (r.2 + 1) + 1) else f2
  if r.2 < n1 - 1 then upd2 f3 l.1 (r.2 + 1) (f3 l.1 (r.2 + 1) - 1) else f3

/-- Brute-force per-cell increment over a 2-d box. -/
def bruteAdd2 (g : ℕ → ℕ → ℤ) (l r : ℕ × ℕ) : ℕ → ℕ → ℤ :=
  fun x y => if l.1 ≤ x ∧ x ≤ r.1 ∧ l.2 ≤ y ∧ y ≤ r.2 then g x y + 1 else g x y

/-- A sequence of 2-d `_add_range` calls, in order. -/
def addRanges2 (n0 n1 : ℕ) (L : List ((ℕ × ℕ) × (ℕ × ℕ))) (f : ℕ → ℕ → ℤ) :
    ℕ → ℕ → ℤ :=
  L.foldl (fun g p => addRange2 n0 n1 g p.1 p.2) f

/-- The same sequence done by brute-force per-cell increments. -/
def bruteAdds2 (L : List ((ℕ × ℕ) × (ℕ × ℕ))) (g : ℕ → ℕ → ℤ) : ℕ → ℕ → ℤ :=
  L.foldl (fun g p => bruteAdd2 g p.1 p.2) g

/-- `SetManager._query_range`, 2-d branch: inclusion–exclusion with the
source's guards (`x1 > 0`, nested `y1 > 0`, and separate `y1 > 0`). -/
def queryRange2 (f : ℕ → ℕ → ℤ) (l r : ℕ × ℕ) : ℤ :=
  let a0 := f r.1 r.2
  let a1 := if 0 < l.1 then
    a0 - f (l.1 - 1) r.2 + (if 0 < l.2 then f (l.1 - 1) (l.2 - 1) else 0)
    else a0
  if 0 < l.2 then a1 - f r.1 (l.2 - 1) else a1

/-- Double prefix sums as read by `queryRange2`: `F X Y = ∑_(a<X) ∑_(b<Y) f a b`. -/
def rectSum (b : ℕ → ℕ → ℤ) (X Y : ℕ) : ℤ :=
  ∑ a ∈ Finset.range X, ∑ c ∈ Finset.range Y, b a c

/-- Python `int()` applied to a float, idealised on `ℚ`: truncation toward zero. -/
def pyInt (q : ℚ) : ℤ := if 0 ≤ q then ⌊q⌋ else -⌊-q⌋

/-- One axis of `SetManager.nearest`: `int(x0[i] * (self.size[i] - 1) + 0.5)`. -/
def nearestAxis (sz : ℕ) (x : ℚ) : ℤ := pyInt (x * ((sz - 1 : ℕ) : ℚ) + 1 / 2)

/-- `⌊c / sqrt 2⌋` for `0 ≤ c`, computed exactly on integers:
for `c = p / q` one has `c / √2 = √(2 p²) / (2 q)`, and flooring commutes
with the integer division. Used for the 2-d boxes, where the source divides
by `t = self.dim ** 0.5 = sqrt(2)` before `math.ceil` / `math.floor`
(`⌈x - c/√2⌉ = x - ⌊c/√2⌋` and `⌊x + c/√2⌋ = x + ⌊c/√2⌋` for integer `x`). -/
def fds2 (c : ℚ) : ℤ := ((Nat.sqrt (2 * c.num.toNat ^ 2) / (2 * c.den) : ℕ) : ℤ)

/-- The 1-d `SetManager` state: grid size plus the per-cell boolean sets,
confidence bounds and the scratch buffer `tmp`. -/
structure SM1 where
  n : ℕ
  s_set : ℕ → Bool
  g_set : ℕ → Bool
  m_set : ℕ → Bool
  vis_set : ℕ → Bool
  upper_conf : ℕ → ℚ
  lower_conf : ℕ → ℚ
  tmp : ℕ → ℤ

/-- The 2-d `SetManager` state. -/
structure SM2 where
  n0 : ℕ
  n1 : ℕ
  s_set : ℕ × ℕ → Bool
  g_set : ℕ × ℕ → Bool
  m_set : ℕ × ℕ → Bool
  vis_set : ℕ × ℕ → Bool
  upper_conf : ℕ × ℕ → ℚ
  lower_conf : ℕ × ℕ → ℚ
  tmp : ℕ → ℕ → ℤ

/-- `SetManager.update_bounds`, 1-d coordinates: intersect the confidence
interval with `[m - v*b, m + v*b]`. -/
def SM1.update_bounds (M : SM1) (i : ℕ) (m v b : ℚ) : SM1 :=
  { M with
    upper_conf := fun x => if x = i then min (M.upper_conf i) (m + v * b) else M.upper_conf x
    lower_conf := fun x => if x = i then max (M.lower_conf i) (m - v * b) else M.lower_conf x }

/-- `SetManager.update_bounds`, 2-d coordinates. -/
def SM2.update_bounds (M : SM2) (p : ℕ × ℕ) (m v b : ℚ) : SM2 :=
  { M with
    upper_conf := fun x => if x = p then min (M.upper_conf p) (m + v * b) else M.upper_conf x
    lower_conf := fun x => if x = p then max (M.lower_conf p) (m - v * b) else M.lower_conf x }

/-- The clipped axis-aligned box around cell `i` of half-width
`maxd * (size[0]-1) / sqrt(1)`:
`mn = max(ceil(i - maxd*(n-1)), 0)`, `mx = min(floor(i + maxd*(n-1)), n-1)`. -/
def SM1.box (M : SM1) (i : ℕ) (maxd : ℚ) : ℕ × ℕ :=
  let c : ℚ := maxd * ((M.n - 1 : ℕ) : ℚ)
  ((max ⌈(i : ℚ) - c⌉ 0).toNat,
   (min ⌊(i : ℚ) + c⌋ ((M.n - 1 : ℕ) : ℤ)).toNat)

/-- The clipped axis-aligned box around cell `p` of per-axis half-width
`maxd * (size[j]-1) / sqrt(2)` (see `fds2` for the exact integer form of
`ceil` / `floor` after the division by `sqrt 2`). -/
def SM2.box (M : SM2) (p : ℕ × ℕ) (maxd : ℚ) : (ℕ × ℕ) × (ℕ × ℕ) :=
  let c0 : ℚ := maxd * ((M.n0 - 1 : ℕ) : ℚ)
  let c1 : ℚ := maxd * ((M.n1 - 1 : ℕ) : ℚ)
  (((max ((p.1 : ℤ) - fds2 c0) 0).toNat, (max ((p.2 : ℤ) - fds2 c1) 0).toNat),
   ((min ((p.1 : ℤ) + fds2 c0) ((M.n0 - 1 : ℕ) : ℤ)).toNat,
    (min ((p.2 : ℤ) + fds2 c1) ((M.n1 - 1 : ℕ) : ℤ)).toNat))

/-- Row-major enumeration of the grid, `nd_range(size)` for a 2-d size. -/
def ndRange2 (n0 n1 : ℕ) : List (ℕ × ℕ) :=
  (List.range n0).product (List.range n1)

/-- `SetManager.update_s_set`, 1-d: zero the scratch buffer, `_add_range`
the box of every safe cell with positive pessimistic slack
`maxd = (h - upper_conf[i]) / l`, `_presum`, then `s_set |= (tmp > 0)`. -/
def SM1.update_s_set (M : SM1) (h l : ℚ) : SM1 :=
  let tmp1 := (List.range M.n).foldl (fun f i =>
    if M.s_set i then
      let maxd := (h - M.upper_conf i) / l
      if 0 < maxd then
        let b := M.box i maxd
        addRange1 M.n f b.1 b.2
      else f
    else f) (fun _ => (0 : ℤ))
  let tmp2 := presum1 M.n tmp1
  { M with tmp := tmp2, s_set := fun i => M.s_set i || decide (0 < tmp2 i) }

/-- `SetManager.update_s_set`, 2-d. -/
def SM2.update_s_set (M : SM2) (h l : ℚ) : SM2 :=
  let tmp1 := (ndRange2 M.n0 M.n1).foldl (fun f p =>
    if M.s_set p then
      let maxd := (h - M.upper_conf p) / l
      if 0 < maxd then
        let b := M.box p maxd
        addRange2 M.n0 M.n1 f b.1 b.2
      else f
    else f) (fun _ _ => (0 : ℤ))
  let tmp2 := presum2 M.n0 M.n1 tmp1
  { M with tmp := tmp2, s_set := fun p => M.s_set p || decide (0 < tmp2 p.1 p.2) }

/-- `SetManager.update_g_set`, 1-d: reset `g_set`, build the unsafe
indicator `1 - s_set` in `tmp`, `_presum` it, and mark as expander every
safe cell with positive optimistic slack `maxd = (h - lower_conf[i]) / l`
whose box contains at least one unsafe cell (`_query_range > 0`). -/
def SM1.update_g_set (M : SM1) (h l : ℚ) : SM1 :=
  let tmp2 := presum1 M.n (fun i => 1 - (if M.s_set i then 1 else 0))
  let cond : ℕ → Bool := fun i =>
    M.s_set i &&
      (let maxd := (h - M.lower_conf i) / l
       decide (0 < maxd) &&
         (let b := M.box i maxd
          decide (0 < queryRange1 tmp2 b.1 b.2)))
  let g2 := (List.range M.n).foldl (fun g i =>
    if cond i then (fun x => if x = i then true else g x) else g) (fun _ => false)
  { M with tmp := tmp2, g_set := g2 }

/-- `SetManager.update_g_set`, 2-d. -/
def SM2.update_g_set (M : SM2) (h l : ℚ) : SM2 :=
  let tmp2 := presum2 M.n0 M.n1 (fun a b => 1 - (if M.s_set (a, b) then 1 else 0))
  let cond : ℕ × ℕ → Bool := fun p =>
    M.s_set p &&
      (let maxd := (h - M.lower_conf p) / l
       decide (0 < maxd) &&
         (let b := M.box p maxd
          decide (0 < queryRange2 tmp2 b.1 b.2)))
  let g2 := (ndRange2 M.n0 M.n1).foldl (fun g p =>
    if cond p then (fun x => if x = p then true else g x) else g) (fun _ => false)
  { M with tmp := tmp2, g_set := g2 }

/-- `SetManager.update_m_set`: `m_set = s_set & (lower_conf <= minu)`. -/
def SM1.update_m_set (M : SM1) (minu : ℚ) : SM1 :=
  { M with m_set := fun i => M.s_set i && decide (M.lower_conf i ≤ minu) }

/-- `SetManager.update_m_set`, 2-d. -/
def SM2.update_m_set (M : SM2) (minu : ℚ) : SM2 :=
  { M with m_set := fun p => M.s_set p && decide (M.lower_conf p ≤ minu) }

/-- `SetManager.get_array` composed with `Configuration(...)`: the normalized
vector of a 1-d coordinate, `coord / (size[0]-1)`. Configurations are
identified with their normalized vectors (ConfigSpace equality is
vector equality). -/
def SM1.get_config (M : SM1) (i : ℕ) : List ℚ :=
  [(i : ℚ) / ((M.n - 1 : ℕ) : ℚ)]

/-- 2-d `get_array` / `get_config`. -/
def SM2.get_config (M : SM2) (p : ℕ × ℕ) : List ℚ :=
  [(p.1 : ℚ) / ((M.n0 - 1 : ℕ) : ℚ), (p.2 : ℚ) / ((M.n1 - 1 : ℕ) : ℚ)]

/-- `SetManager.get_arrays`: normalized vectors and coordinates of all
currently safe cells, in scan (row-major) order. -/
def SM1.get_arrays (M : SM1) : List (List ℚ) × List ℕ :=
  let ids := (List.range M.n).filter (fun i => M.s_set i)
  (ids.map M.get_config, ids)

/-- 2-d `get_arrays`. -/
def SM2.get_arrays (M : SM2) : List (List ℚ) × List (ℕ × ℕ) :=
  let ids := (ndRange2 M.n0 M.n1).filter (fun p => M.s_set p)
  (ids.map M.get_config, ids)

/-- `SetManager.nearest` for a 1-d grid (see `nearestAxis`). -/
def SM1.nearest (M : SM1) (v : List ℚ) : ℤ :=
  nearestAxis M.n (v.getD 0 0)

/-- `SetManager.nearest` for a 2-d grid. -/
def SM2.nearest (M : SM2) (v : List ℚ) : ℤ × ℤ :=
  (nearestAxis M.n0 (v.getD 0 0), nearestAxis M.n1 (v.getD 1 0))

/-- `vis_set[coord] = True` (in-range coordinates; all coordinates produced
by the advisor come from vectors in the unit cube). -/
def SM1.markVis (M : SM1) (i : ℤ) : SM1 :=
  { M with vis_set := fun x => if (x : ℤ) = i then true else M.vis_set x }

/-- 2-d `vis_set[coord] = True`. -/
def SM2.markVis (M : SM2) (q : ℤ × ℤ) : SM2 :=
  { M with vis_set := fun x => if ((x.1 : ℤ), (x.2 : ℤ)) = q then true else M.vis_set x }

/-- The in-place visited-mask dilation of `get_suggestion` fallback (b),
1-d: `temp[1:] |= temp[:-1]; temp[:-1] |= temp[1:]`. NumPy ufuncs copy on
overlap, so each slice statement reads the pre-statement values. -/
def dilate1 (n : ℕ) (v : ℕ → Bool) : ℕ → Bool :=
  let v1 := fun i => if 1 ≤ i ∧ i < n then v i || v (i - 1) else v i
  fun i => if i + 1 < n then v1 i || v1 (i + 1) else v1 i

/-- The 2-d dilation: the two axis-0 slice statements, then (dim == 2)
the two axis-1 slice statements, sequentially. -/
def dilate2 (n0 n1 : ℕ) (v : ℕ × ℕ → Bool) : ℕ × ℕ → Bool :=
  let v1 := fun p : ℕ × ℕ =>
    if 1 ≤ p.1 ∧ p.1 < n0 then v p || v (p.1 - 1, p.2) else v p
  let v2 := fun p : ℕ × ℕ =>
    if p.1 + 1 < n0 then v1 p || v1 (p.1 + 1, p.2) else v1 p
  let v3 := fun p : ℕ × ℕ =>
    if 1 ≤ p.2 ∧ p.2 < n1 then v2 p || v2 (p.1, p.2 - 1) else v2 p
  fun p => if p.2 + 1 < n1 then v3 p || v3 (p.1, p.2 + 1) else v3 p

/-- An observation: configuration (as its normalized vector), performance,
and the safety-constraint field. -/
structure Obs where
  config : List ℚ
  perf : ℚ
  constraints : Option (List ℚ)

/-- The external collaborators of the advisor, abstracted at their
interfaces (spec §6): surrogate train/predict, history-store update, and
the RNG draw `randint(0, bound)`. -/
structure Oracle (S H R T : Type) where
  train : S → H → S
  predict : S → List (List ℚ) → List (ℚ × ℚ)
  histUpd : H → Obs → T × H
  rngNext : R → ℕ → ℕ × R

/-- The `SetManager` owned by an advisor: a 1-d or a 2-d grid. -/
inductive SMS where
  | one : SM1 → SMS
  | two : SM2 → SMS

/-- `SafeOptAdvisor` state. `beta_sqrt` holds `t ↦ beta(t) ** 0.5`, the
only form in which the beta schedule is consumed (`sqrt` leaves `ℚ`, so
the composed map is the field). -/
structure Advisor (S H R : Type) where
  sets : SMS
  threshold : ℚ
  lipschitz : ℚ
  beta_sqrt : ℕ → ℚ
  surrogate : S
  hist : H
  to_eval : List (List ℚ)
  current_turn : ℕ
  rng : R

/-- Lines 277–342 of `get_suggestion` for a 1-d grid (everything after the
surrogate retrain / turn increment, which are dimension independent):
predict on safe cells, tighten bounds, recompute the three sets, pick the
widest-interval candidate, else run the fallback cascade. Errors:
`np.min` over an empty safe set, and `randint(0, 0)` when every cell of the
final fallback mask is excluded. Returns the chosen coordinate, the
manager (with `vis_set` as mutated by the aliased dilation of fallback b),
and the RNG. -/
def SM1.pipeline {S H R T : Type} (O : Oracle S H R T) (S1 : S) (bs thr lip : ℚ)
    (rng : R) (M : SM1) : Except Unit (ℕ × SM1 × R) :=
  let ar := M.get_arrays
  let mv := O.predict S1 ar.1
  let M1 := (ar.2.zip mv).foldl (fun Mc q => Mc.update_bounds q.1 q.2.1 q.2.2 bs) M
  let M2 := M1.update_s_set thr lip
  let M3 := M2.update_g_set thr lip
  let safeU := ((List.range M3.n).filter (fun i => M3.s_set i)).map M3.upper_conf
  match safeU.min? with
  | none => .error ()
  | some minu =>
    let M4 := M3.update_m_set minu
    match ((List.range M4.n).foldl (fun acc i =>
        if (M4.g_set i || M4.m_set i) && !M4.vis_set i then
          if acc.2 < M4.upper_conf i - M4.lower_conf i then
            (some i, M4.upper_conf i - M4.lower_conf i)
          else acc
        else acc) ((none : Option ℕ), -(10 : ℚ) ^ 100)).1 with
    | some x => .ok (x, M4, rng)
    | none =>
      let poss0 : ℕ → Bool := fun i => M4.s_set i && !M4.vis_set i
      let step1 : SM1 × (ℕ → Bool) :=
        if (List.range M4.n).any poss0 then (M4, poss0)
        else
          let v2 := dilate1 M4.n M4.vis_set
          ({ M4 with vis_set := v2 }, fun i => v2 i && !v2 i)
      let poss2 : ℕ → Bool :=
        if (List.range step1.1.n).any step1.2 then step1.2
        else fun i => !step1.1.vis_set i
      match h : (List.range step1.1.n).filter poss2 with
      | [] => .error ()
      | c :: cs =>
        ((List.range step1.1.n).filter poss2).getD
            (O.rngNext rng ((List.range step1.1.n).filter poss2).length).1 0
          |> fun x => .ok (x, step1.1, (O.rngNext rng ((List.range step1.1.n).filter poss2).length).2)

/-- The 2-d counterpart of `SM1.pipeline`. -/
def SM2.pipeline {S H R T : Type} (O : Oracle S H R T) (S1 : S) (bs thr lip : ℚ)
    (rng : R) (M : SM2) : Except Unit ((ℕ × ℕ) × SM2 × R) :=
  let ar := M.get_arrays
  let mv := O.predict S1 ar.1
  let M1 := (ar.2.zip mv).foldl (fun Mc q => Mc.update_bounds q.1 q.2.1 q.2.2 bs) M
  let M2 := M1.update_s_set thr lip
  let M3 := M2.update_g_set thr lip
  let safeU := ((ndRange2 M3.n0 M3.n1).filter (fun p => M3.s_set p)).map M3.upper_conf
  match safeU.min? with
  | none => .error ()
  | some minu =>
    let M4 := M3.update_m_set minu
    match ((ndRange2 M4.n0 M4.n1).foldl (fun acc p =>
        if (M4.g_set p || M4.m_set p) && !M4.vis_set p then
          if acc.2 < M4.upper_conf p - M4.lower_conf p then
            (some p, M4.upper_conf p - M4.lower_conf p)
          else acc
        else acc) ((none : Option (ℕ × ℕ)), -(10 : ℚ) ^ 100)).1 with
    | some x => .ok (x, M4, rng)
    | none =>
      let poss0 : ℕ × ℕ → Bool := fun p => M4.s_set p && !M4.vis_set p
      let step1 : SM2 × (ℕ × ℕ → Bool) :=
        if (ndRange2 M4.n0 M4.n1).any poss0 then (M4, poss0)
        else
          let v2 := dilate2 M4.n0 M4.n1 M4.vis_set
          ({ M4 with vis_set := v2 }, fun p => v2 p && !v2 p)
      let poss2 : ℕ × ℕ → Bool :=
        if (ndRange2 step1.1.n0 step1.1.n1).any step1.2 then step1.2
        else fun p => !step1.1.vis_set p
      match h : (ndRange2 step1.1.n0 step1.1.n1).filter poss2 with
      | [] => .error ()
      | c :: cs =>
        ((ndRange2 step1.1.n0 step1.1.n1).filter poss2).getD
            (O.rngNext rng ((ndRange2 step1.1.n0 step1.1.n1).filter poss2).length).1 (0, 0)
          |> fun x => .ok (x, step1.1, (O.rngNext rng ((ndRange2 step1.1.n0 step1.1.n1).filter poss2).length).2)

/-- `SafeOptAdvisor.get_suggestion`. If the pending list is non-empty
return its head and touch nothing; otherwise retrain, bump the turn
counter, run the per-dimension pipeline, and install the chosen
configuration as the (single) pending one. -/
def getSuggestion {S H R T : Type} (O : Oracle S H R T) (A : Advisor S H R) :
    Except Unit (List ℚ × Advisor S H R) :=
  match A.to_eval with
  | c :: _ => .ok (c, A)
  | [] =>
    match A.sets with
    | SMS.one M =>
      match SM1.pipeline O (O.train A.surrogate A.hist)
          (A.beta_sqrt (A.current_turn + 1)) A.threshold A.lipschitz A.rng M with
      | .error e => .error e
      | .ok q =>
        .ok (SM1.get_config q.2.1 q.1,
          { A with
              sets := SMS.one q.2.1
              surrogate := O.train A.surrogate A.hist
              current_turn := A.current_turn + 1
              rng := q.2.2
              to_eval := [SM1.get_config q.2.1 q.1] })
    | SMS.two M =>
      match SM2.pipeline O (O.train A.surrogate A.hist)
          (A.beta_sqrt (A.current_turn + 1)) A.threshold A.lipschitz A.rng M with
      | .error e => .error e
      | .ok q =>
        .ok (SM2.get_config q.2.1 q.1,
          { A with
              sets := SMS.two q.2.1
              surrogate := O.train A.surrogate A.hist
              current_turn := A.current_turn + 1
              rng := q.2.2
              to_eval := [SM2.get_config q.2.1 q.1] })

/-- `sets.vis_set[sets.nearest(config)] = True`, dispatched on dimension. -/
def SMS.markVis (s : SMS) (v : List ℚ) : SMS :=
  match s with
  | .one M => .one (M.markVis (M.nearest v))
  | .two M => .two (M.markVis (M.nearest v))

/-- `SafeOptAdvisor.update_observation`: if the config is pending, remove
it (first occurrence) and mark its nearest cell visited; in every case
clear the constraint field, forward to the history store, and return the
store's result. -/
def updateObservation {S H R T : Type} (O : Oracle S H R T) (A : Advisor S H R)
    (obs : Obs) : T × Advisor S H R :=
  let A1 := if obs.config ∈ A.to_eval then
      { A with to_eval := A.to_eval.erase obs.config, sets := A.sets.markVis obs.config }
    else A
  let rh := O.histUpd A1.hist { obs with constraints := none }
  (rh.1, { A1 with hist := rh.2 })

/-- NumPy integer indexing into an axis of length `n`: in-range indices are
used as is, indices in `[-n, 0)` wrap once to `k + n`, and anything else
raises an IndexError. -/
def npIndex (n : ℕ) (k : ℤ) : Except String ℕ :=
  if 0 ≤ k ∧ k < (n : ℤ) then .ok k.toNat
  else if -(n : ℤ) ≤ k ∧ k < 0 then .ok (k + n).toNat
  else .error "IndexError: index out of bounds"

/-- One iteration of the seed loop of `SafeOptAdvisor.__init__`:
`self.sets.s_set[self.sets.nearest(x.get_array())] = True`, with NumPy
bounds semantics on the unclamped `nearest` result. -/
def SM1.markSafe (M : SM1) (v : List ℚ) : Except String SM1 :=
  match npIndex M.n (M.nearest v) with
  | .error e => .error e
  | .ok i => .ok { M with s_set := fun x => if x = i then true else M.s_set x }

/-- The seed loop: sequential, aborting at the first raising write. -/
def markSeeds (M : SM1) : List (List ℚ) → Except String SM1
  | [] => .ok M
  | v :: vs =>
    match M.markSafe v with
    | .error e => .error e
    | .ok M2 => markSeeds M2 vs

/-- The freshly constructed 1-d `SetManager` (all sets empty, sentinel
bounds, zero scratch buffer). -/
def mkM0 (n : ℕ) : SM1 :=
  { n := n, s_set := fun _ => false, g_set := fun _ => false,
    m_set := fun _ => false, vis_set := fun _ => false,
    upper_conf := fun _ => (10 : ℚ) ^ 100,
    lower_conf := fun _ => -(10 : ℚ) ^ 100, tmp := fun _ => 0 }

/-- `SafeOptAdvisor.__init__` for a 1-d grid: the two asserts on the
objective / constraint counts, the seed-set check (only `None` raises),
marking each seed's nearest cell safe (NumPy indexing, which raises on an
out-of-range unclamped coordinate), and seeding `to_eval` with one
configuration per currently safe cell (`get_arrays`). -/
def mkAdvisor1 {S H R : Type} (num_objs num_constraints : ℕ) (n : ℕ)
    (seed_set : Option (List (List ℚ))) (lip thr : ℚ) (bs : ℕ → ℚ)
    (s0 : S) (h0 : H) (r0 : R) : Except String (Advisor S H R) :=
  if num_objs ≠ 1 then .error "AssertionError"
  else if num_constraints ≠ 1 then .error "AssertionError"
  else
    match seed_set with
    | none => .error "Seed set must not be None!"
    | some seeds =>
      match markSeeds (mkM0 n) seeds with
      | .error e => .error e
      | .ok M1 =>
        .ok { sets := SMS.one M1
              threshold := thr
              lipschitz := lip
              beta_sqrt := bs
              surrogate := s0
              hist := h0
              to_eval := (M1.get_arrays).1
              current_turn := 0
              rng := r0 }

/-- First `m` iterations of the row pass of `_presum`'s 2-d `else` branch
when the buffer is 3-d: `tmp[i, :] += tmp[i-1, :]` adds whole 2-d slices. -/
def presum3RowsAux (f : ℕ → ℕ → ℕ → ℤ) : ℕ → ℕ → ℕ → ℕ → ℤ
  | 0 => f
  | m + 1 =>
    let g := presum3RowsAux f m
    fun i j k => if i = m + 1 then g (m + 1) j k + g m j k else g i j k

/-- Column pass on a 3-d buffer: `tmp[:, i] += tmp[:, i-1]`. -/
def presum3ColsAux (f : ℕ → ℕ → ℕ → ℤ) : ℕ → ℕ → ℕ → ℕ → ℤ
  | 0 => f
  | m + 1 =>
    let g := presum3ColsAux f m
    fun i j k => if j = m + 1 then g i (m + 1) k + g i m k else g i j k

/-- `SetManager._presum` as executed on a `dim = 3` manager: the
`else` branch runs without error, prefix-summing only axes 0 and 1 and
leaving axis 2 untouched. -/
def presum3 (n0 n1 : ℕ) (f : ℕ → ℕ → ℕ → ℤ) : ℕ → ℕ → ℕ → ℤ :=
  presum3ColsAux (presum3RowsAux f (n0 - 1)) (n1 - 1)

/-- The full 3-d prefix sum a correct 3-d `_presum` would have produced. -/
def brute3 (f : ℕ → ℕ → ℕ → ℤ) (i j k : ℕ) : ℤ :=
  ∑ a ∈ Finset.range (i + 1), ∑ b ∈ Finset.range (j + 1),
    ∑ c ∈ Finset.range (k + 1), f a b c

/-- `SetManager._add_range`'s `else` branch with tuple coordinates of
arbitrary length: the unpacking `x1, y1 = l` raises a generic `ValueError`
whenever the tuple does not have exactly two components (this is the path
a `dim >= 3` manager takes — there is no dimension check). -/
def addRangeElse (n0 n1 : ℕ) (f : ℕ → ℕ → ℤ) (l r : List ℕ) :
    Except String (ℕ → ℕ → ℤ) :=
  match l with
  | [x1, y1] =>
    match r with
    | [x2, y2] => .ok (addRange2 n0 n1 f (x1, y1) (x2, y2))
    | _ => .error "ValueError: too many values to unpack"
  | _ => .error "ValueError: too many values to unpack"

/-- Pointwise visited-monotonicity between two `SetManager` states of the
same dimensionality. -/
def SMS.visLE : SMS → SMS → Prop
  | SMS.one M, SMS.one M2 => ∀ i, M.vis_set i = true → M2.vis_set i = true
  | SMS.two M, SMS.two M2 => ∀ p, M.vis_set p = true → M2.vis_set p = true
  | _, _ => False

/-- A small concrete 1-d manager (grid size 5, cell 1 safe and visited)
used to instantiate the universally quantified theorems. -/
def Mex : SM1 :=
  { n := 5, s_set := fun i => decide (i = 1), g_set := fun _ => false,
    m_set := fun _ => false, vis_set := fun i => decide (i = 1),
    upper_conf := fun _ => (10 : ℚ) ^ 100,
    lower_conf := fun _ => -(10 : ℚ) ^ 100, tmp := fun _ => 0 }

/-- A trivial oracle: surrogate predicts mean 0, variance 0 for every row;
the RNG always draws 0. -/
def Oex : Oracle Unit Unit Unit Unit :=
  { train := fun _ _ => (), predict := fun ar => fun l => l.map (fun _ => (0, 0)),
    histUpd := fun _ _ => ((), ()), rngNext := fun _ _ => (0, ()) }

/-- A concrete advisor with one pending configuration. -/
def Aex : Advisor Unit Unit Unit :=
  { sets := SMS.one Mex, threshold := 0, lipschitz := 20, beta_sqrt := fun _ => 1,
    surrogate := (), hist := (), to_eval := [[1 / 2]], current_turn := 0, rng := () }

/-- The same advisor with an empty pending list: `get_suggestion` must run
the full pipeline and, with every safe cell already visited and zero slack,
fall through to the dilation fallback. -/
def A8 : Advisor Unit Unit Unit :=
  { sets := SMS.one Mex, threshold := 0, lipschitz := 20, beta_sqrt := fun _ => 1,
    surrogate := (), hist := (), to_eval := [], current_turn := 0, rng := () }

/-- A stale observation: its configuration is not pending in `Aex`. -/
def obsEx : Obs := { config := [2], perf := 0, constraints := some [1] }

/-- A 3-d buffer with a single 1 at the origin, on a 1 x 1 x 2 grid. -/
def ex3 : ℕ → ℕ → ℕ → ℤ := fun a b c => if a = 0 ∧ b = 0 ∧ c = 0 then 7 else 0

theorem upd1_same (f : ℕ → ℤ) (a : ℕ) (v : ℤ) : upd1 f a v a = v := by simp [upd1]

theorem upd1_other (f : ℕ → ℤ) (a : ℕ) (v : ℤ) (x : ℕ) (h : x ≠ a) :
    upd1 f a v x = f x := by simp [upd1, h]

theorem presum1Aux_gt (f : ℕ → ℤ) : ∀ m x, m < x → presum1Aux f m x = f x := by
  intro m
  induction m with
  | zero => intro x _; rfl
  | succ m ih =>
    intro x hx
    have hne : x ≠ m + 1 := by omega
    simp only [presum1Aux]
    rw [upd1_other _ _ _ _ hne]
    exact ih x (by omega)

theorem presum1Aux_le (f : ℕ → ℤ) :
    ∀ m x, x ≤ m → presum1Aux f m x = ∑ j ∈ Finset.range (x + 1), f j := by
  intro m
  induction m with
  | zero =>
    intro x hx
    have : x = 0 := Nat.le_zero.mp hx
    subst this
    simp [presum1Aux]
  | succ m ih =>
    intro x hx
    rcases Nat.lt_or_ge x (m + 1) with h | h
    · have hne : x ≠ m + 1 := by omega
      simp only [presum1Aux]
      rw [upd1_other _ _ _ _ hne]
      exact ih x (by omega)
    · have hx1 : x = m + 1 := by omega
      subst hx1
      simp only [presum1Aux]
      rw [upd1_same]
      rw [presum1Aux_gt f m (m + 1) (by omega), ih m (le_refl m)]
      have hs : ∑ j ∈ Finset.range (m + 1 + 1), f j
          = ∑ j ∈ Finset.range (m + 1), f j + f (m + 1) :=
        Finset.sum_range_succ f (m + 1)
      rw [hs]
      ring

theorem presum1_eq (n : ℕ) (f : ℕ → ℤ) (i : ℕ) (h : i < n) :
    presum1 n f i = ∑ j ∈ Finset.range (i + 1), f j :=
  presum1Aux_le f (n - 1) i (by omega)

theorem addRange1_apply (n : ℕ) (f : ℕ → ℤ) (l r : ℕ) (hlr : l ≤ r) (x : ℕ) :
    addRange1 n f l r x = f x + deltaR n l r x := by
  have hne : l ≠ r + 1 := by omega
  unfold addRange1 deltaR upd1
  split_ifs <;> simp_all <;> omega

theorem deltaR_sum (n l r i : ℕ) (hlr : l ≤ r) (hr : r < n) (hi : i < n) :
    ∑ j ∈ Finset.range (i + 1), deltaR n l r j
      = if l ≤ i ∧ i ≤ r then 1 else 0 := by
  unfold deltaR
  rw [Finset.sum_sub_distrib]
  rw [Finset.sum_ite_eq' (Finset.range (i + 1)) l (fun _ => (1 : ℤ))]
  have h2 : ∑ j ∈ Finset.range (i + 1), (if r < n - 1 ∧ j = r + 1 then (1 : ℤ) else 0)
      = if r < n - 1 then (if r + 1 ∈ Finset.range (i + 1) then (1 : ℤ) else 0) else 0 := by
    by_cases hc : r < n - 1
    · rw [if_pos hc]
      have he : ∀ j, (if r < n - 1 ∧ j = r + 1 then (1 : ℤ) else 0)
          = (if j = r + 1 then (1 : ℤ) else 0) := by
        intro j; simp [hc]
      simp only [he]
      rw [Finset.sum_ite_eq' (Finset.range (i + 1)) (r + 1) (fun _ => (1 : ℤ))]
    · rw [if_neg hc]
      have he : ∀ j, (if r < n - 1 ∧ j = r + 1 then (1 : ℤ) else 0) = (0 : ℤ) := by
        intro j; simp [hc]
      simp [he]
  rw [h2]
  simp only [Finset.mem_range]
  split_ifs <;> omega

theorem presum1_addRanges (n : ℕ) (L : List (ℕ × ℕ))
    (hL : ∀ p ∈ L, p.1 ≤ p.2 ∧ p.2 < n) (i : ℕ) (hi : i < n) :
    ∀ (f g : ℕ → ℤ), presum1 n f i = g i →
      presum1 n (addRanges1 n L f) i = bruteAdds1 L g i := by
  induction L with
  | nil => intro f g h; exact h
  | cons p L ih =>
    intro f g h
    have hp := hL p (List.mem_cons_self p L)
    have hL' : ∀ q ∈ L, q.1 ≤ q.2 ∧ q.2 < n := fun q hq => hL q (List.mem_cons_of_mem p hq)
    show presum1 n (addRanges1 n L (addRange1 n f p.1 p.2)) i
        = bruteAdds1 L (bruteAdd1 g p.1 p.2) i
    refine ih hL' _ _ ?_
    rw [presum1_eq n _ i hi]
    have : ∀ j, addRange1 n f p.1 p.2 j = f j + deltaR n p.1 p.2 j :=
      addRange1_apply n f p.1 p.2 hp.1
    simp only [this]
    rw [Finset.sum_add_distrib, ← presum1_eq n f i hi, h,
      deltaR_sum n p.1 p.2 i hp.1 hp.2 hi]
    unfold bruteAdd1
    split_ifs <;> ring

theorem queryRange1_eq (n : ℕ) (b : ℕ → ℤ) (l r : ℕ)
    (hlr : l ≤ r) (hr : r < n) :
    queryRange1 (presum1 n b) l r = ∑ j ∈ Finset.Icc l r, b j := by
  unfold queryRange1
  rw [presum1_eq n b r hr]
  have hIcc : Finset.Icc l r = Finset.Ico l (r + 1) := by
    rw [Nat.Ico_succ_right]
  by_cases hl : l = 0
  · subst hl
    rw [if_pos rfl, sub_zero, hIcc, Finset.range_eq_Ico]
  · rw [if_neg hl, presum1_eq n b (l - 1) (by omega)]
    have hl1 : l - 1 + 1 = l := by omega
    rw [hl1, hIcc, Finset.sum_Ico_eq_sub _ (by omega : l ≤ r + 1)]

theorem presumRowsAux_eq (f : ℕ → ℕ → ℤ) :
    ∀ m i j, presumRowsAux f m i j = presum1Aux (fun a => f a j) m i := by
  intro m
  induction m with
  | zero => intro i j; rfl
  | succ m ih =>
    intro i j
    simp only [presumRowsAux, presum1Aux, upd1]
    by_cases hi : i = m + 1 <;> simp [hi, ih]

theorem presumColsAux_eq (f : ℕ → ℕ → ℤ) :
    ∀ m i j, presumColsAux f m i j = presum1Aux (fun b => f i b) m j := by
  intro m
  induction m with
  | zero => intro i j; rfl
  | succ m ih =>
    intro i j
    simp only [presumColsAux, presum1Aux, upd1]
    by_cases hj : j = m + 1 <;> simp [hj, ih]

theorem presum2_eq (n0 n1 : ℕ) (f : ℕ → ℕ → ℤ) (i j : ℕ)
    (hi : i < n0) (hj : j < n1) :
    presum2 n0 n1 f i j
      = ∑ a ∈ Finset.range (i + 1), ∑ b ∈ Finset.range (j + 1), f a b := by
  unfold presum2
  rw [presumColsAux_eq]
  rw [presum1Aux_le _ (n1 - 1) j (by omega)]
  have hrow : ∀ b, presumRowsAux f (n0 - 1) i b
      = ∑ a ∈ Finset.range (i + 1), f a b := by
    intro b
    rw [presumRowsAux_eq]
    exact presum1Aux_le _ (n0 - 1) i (by omega)
  calc ∑ b ∈ Finset.range (j + 1), presumRowsAux f (n0 - 1) i b
      = ∑ b ∈ Finset.range (j + 1), ∑ a ∈ Finset.range (i + 1), f a b := by
        exact Finset.sum_congr rfl (fun b _ => hrow b)
    _ = ∑ a ∈ Finset.range (i + 1), ∑ b ∈ Finset.range (j + 1), f a b :=
        Finset.sum_comm

theorem addRange2_apply (n0 n1 : ℕ) (f : ℕ → ℕ → ℤ) (l r : ℕ × ℕ)
    (h1 : l.1 ≤ r.1) (h2 : l.2 ≤ r.2) (x y : ℕ) :
    addRange2 n0 n1 f l r x y = f x y + deltaR n0 l.1 r.1 x * deltaR n1 l.2 r.2 y := by
  obtain ⟨x1, y1⟩ := l
  obtain ⟨x2, y2⟩ := r
  simp only at h1 h2
  unfold addRange2 deltaR upd2
  simp only
  split_ifs <;> simp_all <;> omega

theorem presum2_addRanges (n0 n1 : ℕ) (L : List ((ℕ × ℕ) × (ℕ × ℕ)))
    (hL : ∀ p ∈ L, p.1.1 ≤ p.2.1 ∧ p.2.1 < n0 ∧ p.1.2 ≤ p.2.2 ∧ p.2.2 < n1)
    (i j : ℕ) (hi : i < n0) (hj : j < n1) :
    ∀ (f g : ℕ → ℕ → ℤ), presum2 n0 n1 f i j = g i j →
      presum2 n0 n1 (addRanges2 n0 n1 L f) i j = bruteAdds2 L g i j := by
  induction L with
  | nil => intro f g h; exact h
  | cons p L ih =>
    intro f g h
    have hp := hL p (List.mem_cons_self p L)
    have hL' : ∀ q ∈ L, q.1.1 ≤ q.2.1 ∧ q.2.1 < n0 ∧ q.1.2 ≤ q.2.2 ∧ q.2.2 < n1 :=
      fun q hq => hL q (List.mem_cons_of_mem p hq)
    show presum2 n0 n1 (addRanges2 n0 n1 L (addRange2 n0 n1 f p.1 p.2)) i j
        = bruteAdds2 L (bruteAdd2 g p.1 p.2) i j
    refine ih hL' _ _ ?_
    rw [presum2_eq n0 n1 _ i j hi hj]
    have hap : ∀ x y, addRange2 n0 n1 f p.1 p.2 x y
        = f x y + deltaR n0 p.1.1 p.2.1 x * deltaR n1 p.1.2 p.2.2 y :=
      addRange2_apply n0 n1 f p.1 p.2 hp.1 hp.2.2.1
    simp only [hap]
    have hsplit : ∑ a ∈ Finset.range (i + 1), ∑ b ∈ Finset.range (j + 1),
        (f a b + deltaR n0 p.1.1 p.2.1 a * deltaR n1 p.1.2 p.2.2 b)
        = (∑ a ∈ Finset.range (i + 1), ∑ b ∈ Finset.range (j + 1), f a b)
          + (∑ a ∈ Finset.range (i + 1), deltaR n0 p.1.1 p.2.1 a)
            * (∑ b ∈ Finset.range (j + 1), deltaR n1 p.1.2 p.2.2 b) := by
      rw [Finset.sum_mul_sum]
      rw [← Finset.sum_add_distrib]
      refine Finset.sum_congr rfl (fun a _ => ?_)
      rw [← Finset.sum_add_distrib]
    rw [hsplit, ← presum2_eq n0 n1 f i j hi hj, h,
      deltaR_sum n0 p.1.1 p.2.1 i hp.1 hp.2.1 hi,
      deltaR_sum n1 p.1.2 p.2.2 j hp.2.2.1 hp.2.2.2 hj]
    unfold bruteAdd2
    split_ifs <;> simp_all <;> ring

theorem rectSum_left_zero (b : ℕ → ℕ → ℤ) (Y : ℕ) : rectSum b 0 Y = 0 := by
  simp [rectSum]

theorem rectSum_right_zero (b : ℕ → ℕ → ℤ) (X : ℕ) : rectSum b X 0 = 0 := by
  simp [rectSum]

theorem queryRange2_eq (n0 n1 : ℕ) (b : ℕ → ℕ → ℤ) (l r : ℕ × ℕ)
    (h1 : l.1 ≤ r.1) (hr1 : r.1 < n0) (h2 : l.2 ≤ r.2) (hr2 : r.2 < n1) :
    queryRange2 (presum2 n0 n1 b) l r
      = ∑ a ∈ Finset.Icc l.1 r.1, ∑ c ∈ Finset.Icc l.2 r.2, b a c := by
  obtain ⟨x1, y1⟩ := l
  obtain ⟨x2, y2⟩ := r
  simp only at h1 h2 hr1 hr2
  have hval : queryRange2 (presum2 n0 n1 b) (x1, y1) (x2, y2)
      = rectSum b (x2 + 1) (y2 + 1) - rectSum b x1 (y2 + 1)
        - rectSum b (x2 + 1) y1 + rectSum b x1 y1 := by
    unfold queryRange2
    simp only
    have hP : ∀ X Y, X < n0 → Y < n1 →
        presum2 n0 n1 b X Y = rectSum b (X + 1) (Y + 1) := by
      intro X Y hX hY
      rw [presum2_eq n0 n1 b X Y hX hY]; rfl
    by_cases hx : 0 < x1
    · by_cases hy : 0 < y1
      · rw [if_pos hx, if_pos hy, if_pos hy,
          hP x2 y2 hr1 hr2, hP (x1 - 1) y2 (by omega) hr2,
          hP (x1 - 1) (y1 - 1) (by omega) (by omega), hP x2 (y1 - 1) hr1 (by omega)]
        have e1 : x1 - 1 + 1 = x1 := by omega
        have e2 : y1 - 1 + 1 = y1 := by omega
        rw [e1, e2]; ring
      · have hy0 : y1 = 0 := by omega
        subst hy0
        rw [if_pos hx, if_neg hy, if_neg hy,
          hP x2 y2 hr1 hr2, hP (x1 - 1) y2 (by omega) hr2]
        have e1 : x1 - 1 + 1 = x1 := by omega
        rw [e1, rectSum_right_zero, rectSum_right_zero]; ring
    · have hx0 : x1 = 0 := by omega
      subst hx0
      by_cases hy : 0 < y1
      · rw [if_neg hx, if_pos hy, hP x2 y2 hr1 hr2, hP x2 (y1 - 1) hr1 (by omega)]
        have e2 : y1 - 1 + 1 = y1 := by omega
        rw [e2, rectSum_left_zero, rectSum_left_zero]; ring
      · have hy0 : y1 = 0 := by omega
        subst hy0
        rw [if_neg hx, if_neg hy, hP x2 y2 hr1 hr2,
          rectSum_left_zero, rectSum_left_zero, rectSum_right_zero]; ring
  rw [hval]
  have hIcc1 : Finset.Icc x1 x2 = Finset.Ico x1 (x2 + 1) := by rw [Nat.Ico_succ_right]
  have hIcc2 : Finset.Icc y1 y2 = Finset.Ico y1 (y2 + 1) := by rw [Nat.Ico_succ_right]
  rw [hIcc1]
  have hrow : ∀ a, ∑ c ∈ Finset.Icc y1 y2, b a c
      = ∑ c ∈ Finset.range (y2 + 1), b a c - ∑ c ∈ Finset.range y1, b a c := by
    intro a
    rw [hIcc2, Finset.sum_Ico_eq_sub _ (by omega : y1 ≤ y2 + 1)]
  simp only [hrow]
  rw [Finset.sum_sub_distrib]
  rw [Finset.sum_Ico_eq_sub _ (by omega : x1 ≤ x2 + 1)]
  rw [Finset.sum_Ico_eq_sub _ (by omega : x1 ≤ x2 + 1)]
  unfold rectSum
  ring

theorem foldl_setTrue {α : Type} [DecidableEq α] (P : α → Bool) :
    ∀ (L : List α) (g0 : α → Bool) (x : α),
      (L.foldl (fun g i => if P i then (fun y => if y = i then true else g y) else g) g0) x
        = (g0 x || (decide (x ∈ L) && P x)) := by
  intro L
  induction L with
  | nil => intro g0 x; simp
  | cons a L ih =>
    intro g0 x
    show (L.foldl _ (if P a then (fun y => if y = a then true else g0 y) else g0)) x = _
    rw [ih]
    by_cases hx : x = a
    · subst hx
      by_cases hp : P x <;> simp [hp]
    · by_cases hp : P a <;> simp [hp, hx]

theorem mem_ndRange2 (n0 n1 : ℕ) (p : ℕ × ℕ) :
    p ∈ ndRange2 n0 n1 ↔ p.1 < n0 ∧ p.2 < n1 := by
  obtain ⟨a, b⟩ := p
  unfold ndRange2
  rw [show (List.range n0).product (List.range n1)
      = (List.range n0) ×ˢ (List.range n1) from rfl]
  rw [List.mem_product]
  simp [List.mem_range]

theorem SM1.box_spec1 (M : SM1) (i : ℕ) (maxd : ℚ) (hd : 0 < maxd) (hi : i < M.n) :
    (M.box i maxd).1 ≤ i ∧ i ≤ (M.box i maxd).2 ∧ (M.box i maxd).2 < M.n := by
  unfold SM1.box
  simp only
  set c : ℚ := maxd * ((M.n - 1 : ℕ) : ℚ) with hc
  have hc0 : 0 ≤ c := mul_nonneg hd.le (Nat.cast_nonneg _)
  have hceil : ⌈(i : ℚ) - c⌉ ≤ (i : ℤ) := by
    calc ⌈(i : ℚ) - c⌉ ≤ ⌈(i : ℚ)⌉ := Int.ceil_le_ceil (by linarith)
      _ = (i : ℤ) := Int.ceil_intCast i
  have hfloor : (i : ℤ) ≤ ⌊(i : ℚ) + c⌋ := by
    rw [Int.le_floor]
    push_cast
    linarith
  have hmax : max ⌈(i : ℚ) - c⌉ 0 ≤ (i : ℤ) := max_le hceil (by positivity)
  have hmin1 : (i : ℤ) ≤ min ⌊(i : ℚ) + c⌋ ((M.n - 1 : ℕ) : ℤ) :=
    le_min hfloor (by exact_mod_cast Nat.le_sub_one_of_lt hi)
  have hmin2 : min ⌊(i : ℚ) + c⌋ ((M.n - 1 : ℕ) : ℤ) ≤ ((M.n - 1 : ℕ) : ℤ) :=
    min_le_right _ _
  refine ⟨?_, ?_, ?_⟩
  · omega
  · omega
  · omega

theorem fds2_nonneg (c : ℚ) : 0 ≤ fds2 c := Int.natCast_nonneg _

theorem fds2_eq_floor (c : ℚ) (hc : 0 ≤ c) :
    fds2 c = ⌊(c : ℝ) / Real.sqrt 2⌋ := by
  have hden : (0 : ℝ) < (c.den : ℝ) := by
    exact_mod_cast c.den_pos
  have hs2 : (0 : ℝ) < Real.sqrt 2 := Real.sqrt_pos.mpr (by norm_num)
  have hp : (c.num.toNat : ℤ) = c.num := Int.toNat_of_nonneg (Rat.num_nonneg.mpr hc)
  have hvalue : (c : ℝ) / Real.sqrt 2
      = Real.sqrt ((2 * c.num.toNat ^ 2 : ℕ) : ℝ) / ((2 * c.den : ℕ) : ℝ) := by
    have hcast : (c : ℝ) = (c.num.toNat : ℝ) / (c.den : ℝ) := by
      rw [Rat.cast_def]
      congr 1
      exact_mod_cast hp.symm
    have hsqrt : Real.sqrt ((2 * c.num.toNat ^ 2 : ℕ) : ℝ)
        = Real.sqrt 2 * (c.num.toNat : ℝ) := by
      push_cast
      rw [Real.sqrt_mul (by norm_num : (0 : ℝ) ≤ 2),
        Real.sqrt_sq (Nat.cast_nonneg c.num.toNat)]
    rw [hcast, hsqrt]
    push_cast
    rw [div_div, div_eq_div_iff (by positivity) (by positivity)]
    have h22 : Real.sqrt 2 * Real.sqrt 2 = 2 :=
      Real.mul_self_sqrt (by norm_num)
    have hre : Real.sqrt 2 * (c.num.toNat : ℝ) * ((c.den : ℝ) * Real.sqrt 2)
        = (Real.sqrt 2 * Real.sqrt 2) * ((c.num.toNat : ℝ) * (c.den : ℝ)) := by
      ring
    rw [hre, h22]
    ring
  rw [hvalue]
  have hnn : 0 ≤ Real.sqrt ((2 * c.num.toNat ^ 2 : ℕ) : ℝ) / ((2 * c.den : ℕ) : ℝ) :=
    div_nonneg (Real.sqrt_nonneg _) (Nat.cast_nonneg _)
  rw [← Int.natCast_floor_eq_floor hnn, Nat.floor_div_nat,
    Real.nat_floor_real_sqrt_eq_nat_sqrt]
  rfl

theorem box2_bounds_spec (x : ℕ) (c : ℚ) (hc : 0 ≤ c) :
    ⌈(x : ℝ) - (c : ℝ) / Real.sqrt 2⌉ = (x : ℤ) - fds2 c ∧
    ⌊(x : ℝ) + (c : ℝ) / Real.sqrt 2⌋ = (x : ℤ) + fds2 c := by
  constructor
  · have h1 : (x : ℝ) - (c : ℝ) / Real.sqrt 2
        = -((c : ℝ) / Real.sqrt 2) + ((x : ℤ) : ℝ) := by
      push_cast
      ring
    rw [h1, Int.ceil_add_int, Int.ceil_neg, ← fds2_eq_floor c hc]
    ring
  · have h1 : (x : ℝ) + (c : ℝ) / Real.sqrt 2
        = (c : ℝ) / Real.sqrt 2 + ((x : ℤ) : ℝ) := by
      push_cast
      ring
    rw [h1, Int.floor_add_int, ← fds2_eq_floor c hc]
    ring

theorem SM2.box_spec2 (M : SM2) (p : ℕ × ℕ) (maxd : ℚ)
    (hp1 : p.1 < M.n0) (hp2 : p.2 < M.n1) :
    (M.box p maxd).1.1 ≤ p.1 ∧ (M.box p maxd).1.2 ≤ p.2 ∧
    p.1 ≤ (M.box p maxd).2.1 ∧ p.2 ≤ (M.box p maxd).2.2 ∧
    (M.box p maxd).2.1 < M.n0 ∧ (M.box p maxd).2.2 < M.n1 := by
  unfold SM2.box
  simp only
  have h0 := fds2_nonneg (maxd * ((M.n0 - 1 : ℕ) : ℚ))
  have h1 := fds2_nonneg (maxd * ((M.n1 - 1 : ℕ) : ℚ))
  have e0 : (((M.n0 - 1 : ℕ) : ℤ)).toNat = M.n0 - 1 := by omega
  have e1 : (((M.n1 - 1 : ℕ) : ℤ)).toNat = M.n1 - 1 := by omega
  refine ⟨?_, ?_, ?_, ?_, ?_, ?_⟩ <;> omega

theorem unsafeSum_pos_iff (s : ℕ → Bool) (a b : ℕ) :
    (0 < ∑ j ∈ Finset.Icc a b, (1 - (if s j then (1 : ℤ) else 0)))
      ↔ ∃ j, a ≤ j ∧ j ≤ b ∧ s j = false := by
  constructor
  · intro hpos
    by_contra hno
    push_neg at hno
    have hz : ∀ j ∈ Finset.Icc a b, (1 - (if s j then (1 : ℤ) else 0)) = 0 := by
      intro j hj
      rw [Finset.mem_Icc] at hj
      have hne := hno j hj.1 hj.2
      have hs : s j = true := by
        cases hsj : s j
        · exact absurd hsj hne
        · rfl
      simp [hs]
    rw [Finset.sum_eq_zero hz] at hpos
    exact lt_irrefl 0 hpos
  · rintro ⟨j, hja, hjb, hjs⟩
    refine Finset.sum_pos' ?_ ⟨j, Finset.mem_Icc.mpr ⟨hja, hjb⟩, ?_⟩
    · intro k _
      cases hsk : s k <;> simp [hsk]
    · simp [hjs]

theorem unsafeSum2_pos_iff (s : ℕ × ℕ → Bool) (a1 b1 a2 b2 : ℕ) :
    (0 < ∑ a ∈ Finset.Icc a1 b1, ∑ c ∈ Finset.Icc a2 b2,
        (1 - (if s (a, c) then (1 : ℤ) else 0)))
      ↔ ∃ q : ℕ × ℕ, a1 ≤ q.1 ∧ q.1 ≤ b1 ∧ a2 ≤ q.2 ∧ q.2 ≤ b2 ∧ s q = false := by
  constructor
  · intro hpos
    by_contra hno
    push_neg at hno
    have hz : ∀ a ∈ Finset.Icc a1 b1,
        (∑ c ∈ Finset.Icc a2 b2, (1 - (if s (a, c) then (1 : ℤ) else 0))) = 0 := by
      intro a ha
      rw [Finset.mem_Icc] at ha
      refine Finset.sum_eq_zero ?_
      intro c hc
      rw [Finset.mem_Icc] at hc
      have hne := hno (a, c) ha.1 ha.2 hc.1 hc.2
      have hs : s (a, c) = true := by
        cases hsj : s (a, c)
        · exact absurd hsj hne
        · rfl
      simp [hs]
    rw [Finset.sum_eq_zero hz] at hpos
    exact lt_irrefl 0 hpos
  · rintro ⟨⟨a, c⟩, ha1, hb1, ha2, hb2, hs⟩
    refine Finset.sum_pos' ?_ ⟨a, Finset.mem_Icc.mpr ⟨ha1, hb1⟩, ?_⟩
    · intro k _
      refine Finset.sum_nonneg ?_
      intro c2 _
      cases hsk : s (k, c2) <;> simp [hsk]
    · refine Finset.sum_pos' ?_ ⟨c, Finset.mem_Icc.mpr ⟨ha2, hb2⟩, ?_⟩
      · intro c2 _
        cases hsk : s (a, c2) <;> simp [hsk]
      · simp [hs]

theorem SM1.update_g_set_spec1 (M : SM1) (h l : ℚ) (x : ℕ) :
    ((M.update_g_set h l).g_set x = true)
      ↔ (x < M.n ∧ M.s_set x = true ∧ 0 < (h - M.lower_conf x) / l ∧
          ∃ j, (M.box x ((h - M.lower_conf x) / l)).1 ≤ j ∧
               j ≤ (M.box x ((h - M.lower_conf x) / l)).2 ∧ M.s_set j = false) := by
  unfold SM1.update_g_set
  simp only
  rw [foldl_setTrue]
  simp only [Bool.false_or, Bool.and_eq_true, decide_eq_true_eq, List.mem_range]
  constructor
  · rintro ⟨hx, hs, hd, hq⟩
    have hbox := M.box_spec1 x ((h - M.lower_conf x) / l) hd hx
    rw [queryRange1_eq M.n _ _ _ (le_trans hbox.1 hbox.2.1) hbox.2.2] at hq
    exact ⟨hx, hs, hd, (unsafeSum_pos_iff M.s_set _ _).mp hq⟩
  · rintro ⟨hx, hs, hd, hex⟩
    have hbox := M.box_spec1 x ((h - M.lower_conf x) / l) hd hx
    refine ⟨hx, hs, hd, ?_⟩
    rw [queryRange1_eq M.n _ _ _ (le_trans hbox.1 hbox.2.1) hbox.2.2]
    exact (unsafeSum_pos_iff M.s_set _ _).mpr hex

theorem SM2.update_g_set_spec2 (M : SM2) (h l : ℚ) (x : ℕ × ℕ) :
    ((M.update_g_set h l).g_set x = true)
      ↔ (x.1 < M.n0 ∧ x.2 < M.n1 ∧ M.s_set x = true ∧ 0 < (h - M.lower_conf x) / l ∧
          ∃ q : ℕ × ℕ, (M.box x ((h - M.lower_conf x) / l)).1.1 ≤ q.1 ∧
            q.1 ≤ (M.box x ((h - M.lower_conf x) / l)).2.1 ∧
            (M.box x ((h - M.lower_conf x) / l)).1.2 ≤ q.2 ∧
            q.2 ≤ (M.box x ((h - M.lower_conf x) / l)).2.2 ∧ M.s_set q = false) := by
  unfold SM2.update_g_set
  simp only
  rw [foldl_setTrue]
  simp only [Bool.false_or, Bool.and_eq_true, decide_eq_true_eq, mem_ndRange2]
  constructor
  · rintro ⟨⟨hx1, hx2⟩, hs, hd, hq⟩
    have hbox := M.box_spec2 x ((h - M.lower_conf x) / l) hx1 hx2
    rw [queryRange2_eq M.n0 M.n1 _ _ _ (le_trans hbox.1 hbox.2.2.1) hbox.2.2.2.2.1
      (le_trans hbox.2.1 hbox.2.2.2.1) hbox.2.2.2.2.2] at hq
    have := (unsafeSum2_pos_iff M.s_set _ _ _ _).mp hq
    obtain ⟨q, hq1, hq2, hq3, hq4, hq5⟩ := this
    exact ⟨hx1, hx2, hs, hd, q, hq1, hq2, hq3, hq4, hq5⟩
  · rintro ⟨hx1, hx2, hs, hd, q, hq1, hq2, hq3, hq4, hq5⟩
    have hbox := M.box_spec2 x ((h - M.lower_conf x) / l) hx1 hx2
    refine ⟨⟨hx1, hx2⟩, hs, hd, ?_⟩
    rw [queryRange2_eq M.n0 M.n1 _ _ _ (le_trans hbox.1 hbox.2.2.1) hbox.2.2.2.2.1
      (le_trans hbox.2.1 hbox.2.2.2.1) hbox.2.2.2.2.2]
    exact (unsafeSum2_pos_iff M.s_set _ _ _ _).mpr ⟨q, hq1, hq2, hq3, hq4, hq5⟩

theorem SM1.update_bounds_upper_le1 (M : SM1) (i : ℕ) (m v b : ℚ) (x : ℕ) :
    (M.update_bounds i m v b).upper_conf x ≤ M.upper_conf x := by
  unfold SM1.update_bounds
  simp only
  by_cases hx : x = i
  · subst hx; simp
  · simp [hx]

theorem SM1.update_bounds_lower_ge1 (M : SM1) (i : ℕ) (m v b : ℚ) (x : ℕ) :
    M.lower_conf x ≤ (M.update_bounds i m v b).lower_conf x := by
  unfold SM1.update_bounds
  simp only
  by_cases hx : x = i
  · subst hx; simp
  · simp [hx]

theorem SM2.update_bounds_upper_le2 (M : SM2) (p : ℕ × ℕ) (m v b : ℚ) (x : ℕ × ℕ) :
    (M.update_bounds p m v b).upper_conf x ≤ M.upper_conf x := by
  unfold SM2.update_bounds
  simp only
  by_cases hx : x = p
  · subst hx; simp
  · simp [hx]

theorem SM2.update_bounds_lower_ge2 (M : SM2) (p : ℕ × ℕ) (m v b : ℚ) (x : ℕ × ℕ) :
    M.lower_conf x ≤ (M.update_bounds p m v b).lower_conf x := by
  unfold SM2.update_bounds
  simp only
  by_cases hx : x = p
  · subst hx; simp
  · simp [hx]

theorem SM1.update_bounds_idem1 (M : SM1) (i : ℕ) (m v b : ℚ) (x : ℕ) :
    ((M.update_bounds i m v b).update_bounds i m v b).upper_conf x
        = (M.update_bounds i m v b).upper_conf x
      ∧ ((M.update_bounds i m v b).update_bounds i m v b).lower_conf x
        = (M.update_bounds i m v b).lower_conf x := by
  unfold SM1.update_bounds
  simp only
  by_cases hx : x = i
  · subst hx
    constructor
    · simp [min_assoc]
    · simp [max_assoc]
  · simp [hx]

theorem SM2.update_bounds_idem2 (M : SM2) (p : ℕ × ℕ) (m v b : ℚ) (x : ℕ × ℕ) :
    ((M.update_bounds p m v b).update_bounds p m v b).upper_conf x
        = (M.update_bounds p m v b).upper_conf x
      ∧ ((M.update_bounds p m v b).update_bounds p m v b).lower_conf x
        = (M.update_bounds p m v b).lower_conf x := by
  unfold SM2.update_bounds
  simp only
  by_cases hx : x = p
  · subst hx
    constructor
    · simp [min_assoc]
    · simp [max_assoc]
  · simp [hx]

theorem SM1.update_s_set_superset1 (M : SM1) (h l : ℚ) (i : ℕ)
    (hs : M.s_set i = true) : (M.update_s_set h l).s_set i = true := by
  unfold SM1.update_s_set
  simp [hs]

theorem SM2.update_s_set_superset2 (M : SM2) (h l : ℚ) (p : ℕ × ℕ)
    (hs : M.s_set p = true) : (M.update_s_set h l).s_set p = true := by
  unfold SM2.update_s_set
  simp [hs]

theorem SM1.update_s_set_vis1 (M : SM1) (h l : ℚ) :
    (M.update_s_set h l).vis_set = M.vis_set := rfl

theorem SM1.update_g_set_vis1 (M : SM1) (h l : ℚ) :
    (M.update_g_set h l).vis_set = M.vis_set := rfl

theorem SM1.update_m_set_vis1 (M : SM1) (minu : ℚ) :
    (M.update_m_set minu).vis_set = M.vis_set := rfl

theorem SM1.update_bounds_vis (M : SM1) (i : ℕ) (m v b : ℚ) :
    (M.update_bounds i m v b).vis_set = M.vis_set := rfl

theorem SM1.foldl_bounds_vis1 (bs : ℚ) (L : List (ℕ × (ℚ × ℚ))) :
    ∀ M : SM1,
      (L.foldl (fun Mc q => Mc.update_bounds q.1 q.2.1 q.2.2 bs) M).vis_set
        = M.vis_set := by
  induction L with
  | nil => intro M; rfl
  | cons p L ih => intro M; exact (ih _).trans rfl

theorem SM2.update_s_set_vis2 (M : SM2) (h l : ℚ) :
    (M.update_s_set h l).vis_set = M.vis_set := rfl

theorem SM2.update_g_set_vis2 (M : SM2) (h l : ℚ) :
    (M.update_g_set h l).vis_set = M.vis_set := rfl

theorem SM2.update_m_set_vis2 (M : SM2) (minu : ℚ) :
    (M.update_m_set minu).vis_set = M.vis_set := rfl

theorem SM2.foldl_bounds_vis2 (bs : ℚ) (L : List ((ℕ × ℕ) × (ℚ × ℚ))) :
    ∀ M : SM2,
      (L.foldl (fun Mc q => Mc.update_bounds q.1 q.2.1 q.2.2 bs) M).vis_set
        = M.vis_set := by
  induction L with
  | nil => intro M; rfl
  | cons p L ih => intro M; exact (ih _).trans rfl

theorem dilate1_mono (n : ℕ) (v : ℕ → Bool) (i : ℕ) (h : v i = true) :
    dilate1 n v i = true := by
  unfold dilate1
  simp only
  split_ifs <;> simp_all

theorem dilate2_mono (n0 n1 : ℕ) (v : ℕ × ℕ → Bool) (p : ℕ × ℕ)
    (h : v p = true) : dilate2 n0 n1 v p = true := by
  unfold dilate2
  simp only
  split_ifs <;> simp_all

theorem SM1.pipeline_vis1 {S H R T : Type} (O : Oracle S H R T) (S1 : S)
    (bs thr lip : ℚ) (rng : R) (M : SM1) (x : ℕ) (M5 : SM1) (R2 : R)
    (h : SM1.pipeline O S1 bs thr lip rng M = .ok (x, M5, R2)) (i : ℕ)
    (hv : M.vis_set i = true) : M5.vis_set i = true := by
  unfold SM1.pipeline at h
  simp only at h
  have hbase :
      ((((M.get_arrays.2.zip (O.predict S1 M.get_arrays.1)).foldl
          (fun Mc q => Mc.update_bounds q.1 q.2.1 q.2.2 bs) M).update_s_set thr
          lip).update_g_set thr lip).vis_set i = true := by
    rw [SM1.update_g_set_vis1, SM1.update_s_set_vis1, SM1.foldl_bounds_vis1]
    exact hv
  split at h
  · exact absurd h (by simp)
  · split at h
    · rw [Except.ok.injEq, Prod.mk.injEq, Prod.mk.injEq] at h
      obtain ⟨-, h2, -⟩ := h
      rw [← h2, SM1.update_m_set_vis1]
      exact hbase
    · split at h
      · exact absurd h (by simp)
      · rw [Except.ok.injEq, Prod.mk.injEq, Prod.mk.injEq] at h
        obtain ⟨-, h2, -⟩ := h
        rw [← h2]
        split
        · rw [SM1.update_m_set_vis1]
          exact hbase
        · show dilate1 _ _ i = true
          refine dilate1_mono _ _ i ?_
          rw [SM1.update_m_set_vis1]
          exact hbase

theorem exceptOk_mid {ε α β γ : Type} {a a2 : α} {b b2 : β} {c c2 : γ}
    (h : (Except.ok (a, b, c) : Except ε (α × β × γ)) = .ok (a2, b2, c2)) :
    b = b2 := by
  injection h with h'
  exact congrArg (fun z : α × β × γ => z.2.1) h'

theorem SM2.pipeline_vis2 {S H R T : Type} (O : Oracle S H R T) (S1 : S)
    (bs thr lip : ℚ) (rng : R) (M : SM2) (x : ℕ × ℕ) (M5 : SM2) (R2 : R)
    (h : SM2.pipeline O S1 bs thr lip rng M = .ok (x, M5, R2)) (p : ℕ × ℕ)
    (hv : M.vis_set p = true) : M5.vis_set p = true := by
  unfold SM2.pipeline at h
  simp only at h
  have hbase :
      ((((M.get_arrays.2.zip (O.predict S1 M.get_arrays.1)).foldl
          (fun Mc q => Mc.update_bounds q.1 q.2.1 q.2.2 bs) M).update_s_set thr
          lip).update_g_set thr lip).vis_set p = true := by
    rw [SM2.update_g_set_vis2, SM2.update_s_set_vis2, SM2.foldl_bounds_vis2]
    exact hv
  split at h
  · exact absurd h (by simp)
  · split at h
    · have h2 := exceptOk_mid h
      rw [← h2, SM2.update_m_set_vis2]
      exact hbase
    · split at h
      · exact absurd h (by simp)
      · have h2 := exceptOk_mid h
        rw [← h2]
        split
        · rw [SM2.update_m_set_vis2]
          exact hbase
        · show dilate2 _ _ _ p = true
          refine dilate2_mono _ _ _ p ?_
          rw [SM2.update_m_set_vis2]
          exact hbase

theorem exceptOk_fst {ε α β : Type} {a a2 : α} {b b2 : β}
    (h : (Except.ok (a, b) : Except ε (α × β)) = .ok (a2, b2)) : a = a2 := by
  injection h with h'
  exact congrArg (fun z : α × β => z.1) h'

theorem exceptOk_snd {ε α β : Type} {a a2 : α} {b b2 : β}
    (h : (Except.ok (a, b) : Except ε (α × β)) = .ok (a2, b2)) : b = b2 := by
  injection h with h'
  exact congrArg (fun z : α × β => z.2) h'

theorem getSuggestion_pending {S H R T : Type} (O : Oracle S H R T)
    (A : Advisor S H R) (c : List ℚ) (cs : List (List ℚ))
    (h : A.to_eval = c :: cs) : getSuggestion O A = .ok (c, A) := by
  unfold getSuggestion
  rw [h]

theorem getSuggestion_cases {S H R T : Type} (O : Oracle S H R T)
    (A : Advisor S H R) (c : List ℚ) (A2 : Advisor S H R)
    (h : getSuggestion O A = .ok (c, A2)) :
    (A2 = A ∧ ∃ cs, A.to_eval = c :: cs) ∨ A2.to_eval = [c] := by
  unfold getSuggestion at h
  split at h
  next c0 cs0 heq =>
    have h1 := exceptOk_fst h
    have h2 := exceptOk_snd h
    exact Or.inl ⟨h2.symm, cs0, by rw [heq, h1]⟩
  next heq =>
    split at h
    next M heqs =>
      split at h
      · exact absurd h (by simp)
      next q heqp =>
        have h1 := exceptOk_fst h
        have h2 := exceptOk_snd h
        refine Or.inr ?_
        rw [← h2, ← h1]
    next M heqs =>
      split at h
      · exact absurd h (by simp)
      next q heqp =>
        have h1 := exceptOk_fst h
        have h2 := exceptOk_snd h
        refine Or.inr ?_
        rw [← h2, ← h1]

theorem SMS.visLE_refl (s : SMS) : s.visLE s := by
  cases s
  · exact fun _ h => h
  · exact fun _ h => h

theorem getSuggestion_visLE {S H R T : Type} (O : Oracle S H R T)
    (A : Advisor S H R) (c : List ℚ) (A2 : Advisor S H R)
    (h : getSuggestion O A = .ok (c, A2)) : A.sets.visLE A2.sets := by
  unfold getSuggestion at h
  split at h
  next c0 cs0 heq =>
    have h2 := exceptOk_snd h
    rw [← h2]
    exact SMS.visLE_refl A.sets
  next heq =>
    split at h
    next M heqs =>
      split at h
      · exact absurd h (by simp)
      next q heqp =>
        have h2 := exceptOk_snd h
        rw [← h2, heqs]
        show SMS.visLE (SMS.one M) (SMS.one q.2.1)
        intro i hv
        exact SM1.pipeline_vis1 O _ _ _ _ _ M q.1 q.2.1 q.2.2 heqp i hv
    next M heqs =>
      split at h
      · exact absurd h (by simp)
      next q heqp =>
        have h2 := exceptOk_snd h
        rw [← h2, heqs]
        show SMS.visLE (SMS.two M) (SMS.two q.2.1)
        intro p hv
        exact SM2.pipeline_vis2 O _ _ _ _ _ M q.1 q.2.1 q.2.2 heqp p hv

theorem SMS.markVis_visLE (s : SMS) (v : List ℚ) : s.visLE (s.markVis v) := by
  cases s with
  | one M =>
    intro i hv
    show (M.markVis (M.nearest v)).vis_set i = true
    unfold SM1.markVis
    simp only
    split_ifs <;> simp_all
  | two M =>
    intro p hv
    show (M.markVis (M.nearest v)).vis_set p = true
    unfold SM2.markVis
    simp only
    split_ifs <;> simp_all

theorem updateObservation_visLE {S H R T : Type} (O : Oracle S H R T)
    (A : Advisor S H R) (obs : Obs) :
    A.sets.visLE (updateObservation O A obs).2.sets := by
  unfold updateObservation
  by_cases hm : obs.config ∈ A.to_eval
  · rw [if_pos hm]
    exact SMS.markVis_visLE A.sets obs.config
  · rw [if_neg hm]
    exact SMS.visLE_refl A.sets

theorem updateObservation_stale {S H R T : Type} (O : Oracle S H R T)
    (A : Advisor S H R) (obs : Obs) (h : obs.config ∉ A.to_eval) :
    (updateObservation O A obs).2.to_eval = A.to_eval ∧
    (updateObservation O A obs).2.sets = A.sets ∧
    (updateObservation O A obs).1
      = (O.histUpd A.hist { obs with constraints := none }).1 ∧
    (updateObservation O A obs).2.hist
      = (O.histUpd A.hist { obs with constraints := none }).2 ∧
    (updateObservation O A obs).2.surrogate = A.surrogate ∧
    (updateObservation O A obs).2.current_turn = A.current_turn ∧
    (updateObservation O A obs).2.rng = A.rng := by
  unfold updateObservation
  rw [if_neg h]
  exact ⟨rfl, rfl, rfl, rfl, rfl, rfl, rfl⟩

theorem updateObservation_forwards {S H R T : Type} (O : Oracle S H R T)
    (A : Advisor S H R) (obs : Obs) :
    (updateObservation O A obs).1
      = (O.histUpd A.hist { obs with constraints := none }).1 ∧
    (updateObservation O A obs).2.hist
      = (O.histUpd A.hist { obs with constraints := none }).2 := by
  unfold updateObservation
  by_cases hm : obs.config ∈ A.to_eval
  · rw [if_pos hm]
    exact ⟨rfl, rfl⟩
  · rw [if_neg hm]
    exact ⟨rfl, rfl⟩

theorem updateObservation_to_eval {S H R T : Type} (O : Oracle S H R T)
    (A : Advisor S H R) (obs : Obs) :
    (updateObservation O A obs).2.to_eval
      = if obs.config ∈ A.to_eval then A.to_eval.erase obs.config
        else A.to_eval := by
  unfold updateObservation
  by_cases hm : obs.config ∈ A.to_eval
  · rw [if_pos hm, if_pos hm]
  · rw [if_neg hm, if_neg hm]

theorem pyInt_eq_floor (q : ℚ) (h : 0 ≤ q) : pyInt q = ⌊q⌋ := if_pos h

theorem nearestAxis_mem (sz : ℕ) (x : ℚ) (hsz : 1 ≤ sz) (h0 : 0 ≤ x)
    (h1 : x ≤ 1) : 0 ≤ nearestAxis sz x ∧ nearestAxis sz x ≤ (sz : ℤ) - 1 := by
  unfold nearestAxis
  have hq0 : 0 ≤ x * ((sz - 1 : ℕ) : ℚ) + 1 / 2 := by positivity
  rw [pyInt_eq_floor _ hq0]
  constructor
  · exact Int.floor_nonneg.mpr hq0
  · have hcast : ((sz - 1 : ℕ) : ℚ) = (sz : ℚ) - 1 := by
      push_cast [Nat.cast_sub hsz]
      ring
    have hle : x * ((sz - 1 : ℕ) : ℚ) ≤ ((sz - 1 : ℕ) : ℚ) := by
      nlinarith [Nat.cast_nonneg (α := ℚ) (sz - 1)]
    have hlt : x * ((sz - 1 : ℕ) : ℚ) + 1 / 2 < ((sz : ℤ) : ℚ) := by
      rw [hcast]
      push_cast
      rw [hcast] at hle
      linarith
    have := Int.floor_lt.mpr hlt
    omega

theorem nearestAxis_stable (sz : ℕ) (c : ℕ) (x : ℚ)
    (h : |x * ((sz - 1 : ℕ) : ℚ) - (c : ℚ)| < 1 / 2) :
    nearestAxis sz x = (c : ℤ) := by
  unfold nearestAxis
  rw [abs_lt] at h
  have hc0 : (0 : ℚ) ≤ (c : ℚ) := Nat.cast_nonneg c
  have hq0 : 0 ≤ x * ((sz - 1 : ℕ) : ℚ) + 1 / 2 := by linarith [h.1]
  rw [pyInt_eq_floor _ hq0]
  rw [Int.floor_eq_iff]
  constructor
  · push_cast
    linarith [h.1]
  · push_cast
    linarith [h.2]

theorem presum3RowsAux_eq (f : ℕ → ℕ → ℕ → ℤ) :
    ∀ m i j k, presum3RowsAux f m i j k = presum1Aux (fun a => f a j k) m i := by
  intro m
  induction m with
  | zero => intro i j k; rfl
  | succ m ih =>
    intro i j k
    simp only [presum3RowsAux, presum1Aux, upd1]
    by_cases hi : i = m + 1 <;> simp [hi, ih]

theorem presum3ColsAux_eq (f : ℕ → ℕ → ℕ → ℤ) :
    ∀ m i j k, presum3ColsAux f m i j k = presum1Aux (fun b => f i b k) m j := by
  intro m
  induction m with
  | zero => intro i j k; rfl
  | succ m ih =>
    intro i j k
    simp only [presum3ColsAux, presum1Aux, upd1]
    by_cases hj : j = m + 1 <;> simp [hj, ih]

theorem presum3_eq (n0 n1 : ℕ) (f : ℕ → ℕ → ℕ → ℤ) (i j k : ℕ)
    (hi : i < n0) (hj : j < n1) :
    presum3 n0 n1 f i j k
      = ∑ a ∈ Finset.range (i + 1), ∑ b ∈ Finset.range (j + 1), f a b k := by
  unfold presum3
  rw [presum3ColsAux_eq]
  rw [presum1Aux_le _ (n1 - 1) j (by omega)]
  have hrow : ∀ b, presum3RowsAux f (n0 - 1) i b k
      = ∑ a ∈ Finset.range (i + 1), f a b k := by
    intro b
    rw [presum3RowsAux_eq]
    exact presum1Aux_le _ (n0 - 1) i (by omega)
  calc ∑ b ∈ Finset.range (j + 1), presum3RowsAux f (n0 - 1) i b k
      = ∑ b ∈ Finset.range (j + 1), ∑ a ∈ Finset.range (i + 1), f a b k :=
        Finset.sum_congr rfl (fun b _ => hrow b)
    _ = ∑ a ∈ Finset.range (i + 1), ∑ b ∈ Finset.range (j + 1), f a b k :=
        Finset.sum_comm

/-- C1: on 1-d and 2-d grids, any sequence of `_add_range(l, r)` calls on a
zeroed scratch buffer followed by one `_presum` pass gives, at every
in-grid cell, exactly the brute-force per-cell increment count of the
added boxes containing it; and `_query_range(l, r)` on a buffer of prefix
sums of a base array returns the base array's sum over the box. -/
theorem claim_C1 :
    (∀ (n : ℕ) (L : List (ℕ × ℕ)), (∀ p ∈ L, p.1 ≤ p.2 ∧ p.2 < n) →
      ∀ i, i < n →
        presum1 n (addRanges1 n L (fun _ => 0)) i
          = bruteAdds1 L (fun _ => 0) i) ∧
    (∀ (n : ℕ) (b : ℕ → ℤ) (l r : ℕ), l ≤ r → r < n →
      queryRange1 (presum1 n b) l r = ∑ j ∈ Finset.Icc l r, b j) ∧
    (∀ (n0 n1 : ℕ) (L : List ((ℕ × ℕ) × (ℕ × ℕ))),
      (∀ p ∈ L, p.1.1 ≤ p.2.1 ∧ p.2.1 < n0 ∧ p.1.2 ≤ p.2.2 ∧ p.2.2 < n1) →
      ∀ i j, i < n0 → j < n1 →
        presum2 n0 n1 (addRanges2 n0 n1 L (fun _ _ => 0)) i j
          = bruteAdds2 L (fun _ _ => 0) i j) ∧
    (∀ (n0 n1 : ℕ) (b : ℕ → ℕ → ℤ) (l r : ℕ × ℕ),
      l.1 ≤ r.1 → r.1 < n0 → l.2 ≤ r.2 → r.2 < n1 →
      queryRange2 (presum2 n0 n1 b) l r
        = ∑ a ∈ Finset.Icc l.1 r.1, ∑ c ∈ Finset.Icc l.2 r.2, b a c) := by
  refine ⟨?_, queryRange1_eq, ?_, queryRange2_eq⟩
  · intro n L hL i hi
    refine presum1_addRanges n L hL i hi (fun _ => 0) (fun _ => 0) ?_
    rw [presum1_eq n _ i hi]
    simp
  · intro n0 n1 L hL i j hi hj
    refine presum2_addRanges n0 n1 L hL i j hi hj _ _ ?_
    rw [presum2_eq n0 n1 _ i j hi hj]
    simp

theorem claim_C1_witness :
    presum1 3 (addRanges1 3 [(0, 1), (1, 2), (2, 2)] (fun _ => 0)) 1
        = bruteAdds1 [(0, 1), (1, 2), (2, 2)] (fun _ => 0) 1 ∧
    queryRange1 (presum1 4 (fun i => (i : ℤ))) 1 3
        = ∑ j ∈ Finset.Icc 1 3, ((j : ℕ) : ℤ) ∧
    presum2 2 3 (addRanges2 2 3 [((0, 0), (1, 1)), ((0, 2), (1, 2))] (fun _ _ => 0)) 1 2
        = bruteAdds2 [((0, 0), (1, 1)), ((0, 2), (1, 2))] (fun _ _ => 0) 1 2 ∧
    queryRange2 (presum2 2 2 (fun a b => (a : ℤ) + b)) (0, 1) (1, 1)
        = ∑ a ∈ Finset.Icc 0 1, ∑ c ∈ Finset.Icc 1 1, ((a : ℤ) + c) :=
  ⟨claim_C1.1 3 [(0, 1), (1, 2), (2, 2)] (by with_unfolding_all decide) 1 (by with_unfolding_all decide),
   claim_C1.2.1 4 (fun i => (i : ℤ)) 1 3 (by with_unfolding_all decide) (by with_unfolding_all decide),
   claim_C1.2.2.1 2 3 [((0, 0), (1, 1)), ((0, 2), (1, 2))] (by with_unfolding_all decide) 1 2
     (by with_unfolding_all decide) (by with_unfolding_all decide),
   claim_C1.2.2.2 2 2 (fun a b => (a : ℤ) + b) (0, 1) (1, 1)
     (by with_unfolding_all decide) (by with_unfolding_all decide) (by with_unfolding_all decide) (by with_unfolding_all decide)⟩

/-- C2: update_bounds never increases upper_conf, never decreases
lower_conf, and a repeated call with the same arguments leaves both
unchanged; update_s_set never unsets a safe cell; visited cells flip only
false-to-true across update_observation and across get_suggestion. -/
theorem claim_C2 :
    (∀ (M : SM1) (i : ℕ) (m v b : ℚ) (x : ℕ),
      (M.update_bounds i m v b).upper_conf x ≤ M.upper_conf x ∧
      M.lower_conf x ≤ (M.update_bounds i m v b).lower_conf x ∧
      ((M.update_bounds i m v b).update_bounds i m v b).upper_conf x
        = (M.update_bounds i m v b).upper_conf x ∧
      ((M.update_bounds i m v b).update_bounds i m v b).lower_conf x
        = (M.update_bounds i m v b).lower_conf x) ∧
    (∀ (M : SM2) (p : ℕ × ℕ) (m v b : ℚ) (x : ℕ × ℕ),
      (M.update_bounds p m v b).upper_conf x ≤ M.upper_conf x ∧
      M.lower_conf x ≤ (M.update_bounds p m v b).lower_conf x ∧
      ((M.update_bounds p m v b).update_bounds p m v b).upper_conf x
        = (M.update_bounds p m v b).upper_conf x ∧
      ((M.update_bounds p m v b).update_bounds p m v b).lower_conf x
        = (M.update_bounds p m v b).lower_conf x) ∧
    (∀ (M : SM1) (h l : ℚ) (i : ℕ),
      M.s_set i = true → (M.update_s_set h l).s_set i = true) ∧
    (∀ (M : SM2) (h l : ℚ) (p : ℕ × ℕ),
      M.s_set p = true → (M.update_s_set h l).s_set p = true) ∧
    (∀ (S H R T : Type) (O : Oracle S H R T) (A : Advisor S H R) (obs : Obs),
      A.sets.visLE (updateObservation O A obs).2.sets) ∧
    (∀ (S H R T : Type) (O : Oracle S H R T) (A : Advisor S H R)
       (c : List ℚ) (A2 : Advisor S H R),
      getSuggestion O A = .ok (c, A2) → A.sets.visLE A2.sets) := by
  refine ⟨?_, ?_, SM1.update_s_set_superset1, SM2.update_s_set_superset2,
    ?_, ?_⟩
  · intro M i m v b x
    exact ⟨M.update_bounds_upper_le1 i m v b x, M.update_bounds_lower_ge1 i m v b x,
      (M.update_bounds_idem1 i m v b x).1, (M.update_bounds_idem1 i m v b x).2⟩
  · intro M p m v b x
    exact ⟨M.update_bounds_upper_le2 p m v b x, M.update_bounds_lower_ge2 p m v b x,
      (M.update_bounds_idem2 p m v b x).1, (M.update_bounds_idem2 p m v b x).2⟩
  · intro S H R T O A obs
    exact updateObservation_visLE O A obs
  · intro S H R T O A c A2 h
    exact getSuggestion_visLE O A c A2 h

theorem claim_C2_witness :
    (Mex.update_s_set 1 20).s_set 1 = true ∧ Aex.sets.visLE Aex.sets :=
  ⟨claim_C2.2.2.1 Mex 1 20 1 (by with_unfolding_all decide),
   claim_C2.2.2.2.2.2 Unit Unit Unit Unit Oex Aex [1 / 2] Aex rfl⟩

/-- C3: after update_g_set(h, l), the expander set is exactly the set of
safe in-grid cells with positive optimistic slack maxd = (h - lower) / l
whose clipped box of per-axis radius maxd * (size[j]-1) / sqrt(dim)
contains at least one cell unsafe at entry; every other cell is
non-expander. Stated for 1-d and 2-d grids. -/
theorem claim_C3 :
    (∀ (M : SM1) (h l : ℚ) (x : ℕ),
      ((M.update_g_set h l).g_set x = true)
        ↔ (x < M.n ∧ M.s_set x = true ∧ 0 < (h - M.lower_conf x) / l ∧
            ∃ j, (M.box x ((h - M.lower_conf x) / l)).1 ≤ j ∧
                 j ≤ (M.box x ((h - M.lower_conf x) / l)).2 ∧
                 M.s_set j = false)) ∧
    (∀ (M : SM2) (h l : ℚ) (x : ℕ × ℕ),
      ((M.update_g_set h l).g_set x = true)
        ↔ (x.1 < M.n0 ∧ x.2 < M.n1 ∧ M.s_set x = true ∧
            0 < (h - M.lower_conf x) / l ∧
            ∃ q : ℕ × ℕ, (M.box x ((h - M.lower_conf x) / l)).1.1 ≤ q.1 ∧
              q.1 ≤ (M.box x ((h - M.lower_conf x) / l)).2.1 ∧
              (M.box x ((h - M.lower_conf x) / l)).1.2 ≤ q.2 ∧
              q.2 ≤ (M.box x ((h - M.lower_conf x) / l)).2.2 ∧
              M.s_set q = false)) :=
  ⟨SM1.update_g_set_spec1, SM2.update_g_set_spec2⟩

/-- C4 counterexample: immediately after construction with two seed
configurations snapping to distinct cells, the pending list holds two
configurations, not at most one. -/
theorem claim_C4_counterexample :
    (mkAdvisor1 (S := Unit) (H := Unit) (R := Unit) 1 1 5 (some [[0], [1]])
        20 1 (fun _ => 1) () () ()).toOption.map
      (fun A => A.to_eval.length) = some 2 ∧ ¬ (2 ≤ 1) := by with_unfolding_all decide

/-- C4 amended: construction seeds the pending list with one configuration
per seed-marked safe cell (possibly more than one); thereafter the list
never grows: get_suggestion installs a singleton only when the list is
empty and returns it unchanged otherwise, and update_observation only
removes the matching configuration. So once the pending list has at most
one entry it keeps at most one entry. -/
theorem claim_C4_amended :
    (∀ (S H R T : Type) (O : Oracle S H R T) (A : Advisor S H R)
       (c : List ℚ) (A2 : Advisor S H R), A.to_eval.length ≤ 1 →
       getSuggestion O A = .ok (c, A2) → A2.to_eval.length ≤ 1) ∧
    (∀ (S H R T : Type) (O : Oracle S H R T) (A : Advisor S H R) (obs : Obs),
       (updateObservation O A obs).2.to_eval.length ≤ A.to_eval.length) ∧
    (∀ (S H R T : Type) (O : Oracle S H R T) (A : Advisor S H R) (obs : Obs),
       (updateObservation O A obs).2.to_eval
         = if obs.config ∈ A.to_eval then A.to_eval.erase obs.config
           else A.to_eval) := by
  refine ⟨?_, ?_, ?_⟩
  · intro S H R T O A c A2 hlen h
    rcases getSuggestion_cases O A c A2 h with ⟨rfl, cs, hte⟩ | hte
    · exact hlen
    · rw [hte]
      exact le_refl 1
  · intro S H R T O A obs
    rw [updateObservation_to_eval]
    split
    · exact (List.erase_sublist _ _).length_le
    · exact le_refl _
  · intro S H R T O A obs
    exact updateObservation_to_eval O A obs

theorem claim_C4_amended_witness :
    Aex.to_eval.length ≤ 1 ∧
    (updateObservation Oex Aex obsEx).2.to_eval
      = if obsEx.config ∈ Aex.to_eval then Aex.to_eval.erase obsEx.config
        else Aex.to_eval :=
  ⟨claim_C4_amended.1 Unit Unit Unit Unit Oex Aex [1 / 2] Aex (by with_unfolding_all decide) rfl,
   claim_C4_amended.2.2 Unit Unit Unit Unit Oex Aex obsEx⟩

/-- C5 counterexample: nearest does not clamp. On a size-5 axis the input
vector 2 (outside the unit cube) maps to coordinate 8, outside the grid
range [0, 4]. -/
theorem claim_C5_counterexample :
    nearestAxis 5 2 = 8 ∧ ¬ (nearestAxis 5 2 ≤ 5 - 1) := by with_unfolding_all decide

/-- C5 amended: nearest rounds each axis independently as
int(v[i] * (size[i]-1) + 0.5) with truncation toward zero and no
clamping; the result is a valid in-grid coordinate for vectors inside the
unit cube (not for arbitrary vectors), and for every vector strictly
within half a grid cell of a coordinate's center it returns that
coordinate. -/
theorem claim_C5_amended :
    (∀ (sz : ℕ) (x : ℚ),
      nearestAxis sz x = pyInt (x * ((sz - 1 : ℕ) : ℚ) + 1 / 2)) ∧
    (∀ (sz : ℕ) (x : ℚ), 1 ≤ sz → 0 ≤ x → x ≤ 1 →
      0 ≤ nearestAxis sz x ∧ nearestAxis sz x ≤ (sz : ℤ) - 1) ∧
    (∀ (sz : ℕ) (c : ℕ) (x : ℚ),
      |x * ((sz - 1 : ℕ) : ℚ) - (c : ℚ)| < 1 / 2 →
      nearestAxis sz x = (c : ℤ)) :=
  ⟨fun _ _ => rfl, nearestAxis_mem, nearestAxis_stable⟩

theorem claim_C5_amended_witness :
    (0 ≤ nearestAxis 5 (1 / 2) ∧ nearestAxis 5 (1 / 2) ≤ (5 : ℤ) - 1) ∧
    nearestAxis 5 (1 / 2) = (2 : ℤ) :=
  ⟨claim_C5_amended.2.1 5 (1 / 2) (by with_unfolding_all decide) (by with_unfolding_all decide) (by with_unfolding_all decide),
   claim_C5_amended.2.2 5 2 (1 / 2) (by with_unfolding_all decide)⟩

theorem markSafe_in (M : SM1) (v : List ℚ)
    (h : -(M.n : ℤ) ≤ M.nearest v ∧ M.nearest v < (M.n : ℤ)) :
    ∃ M2, M.markSafe v = .ok M2 ∧ M2.n = M.n := by
  unfold SM1.markSafe npIndex
  by_cases h1 : 0 ≤ M.nearest v ∧ M.nearest v < (M.n : ℤ)
  · rw [if_pos h1]
    exact ⟨_, rfl, rfl⟩
  · rw [if_neg h1, if_pos (by omega)]
    exact ⟨_, rfl, rfl⟩

theorem markSafe_out (M : SM1) (v : List ℚ)
    (h : ¬ (-(M.n : ℤ) ≤ M.nearest v ∧ M.nearest v < (M.n : ℤ))) :
    M.markSafe v = .error "IndexError: index out of bounds" := by
  unfold SM1.markSafe npIndex
  rw [if_neg (by omega), if_neg (by omega)]

theorem markSeeds_cons_ok (M M2 : SM1) (v : List ℚ) (vs : List (List ℚ))
    (h : M.markSafe v = .ok M2) : markSeeds M (v :: vs) = markSeeds M2 vs := by
  show (match M.markSafe v with
    | Except.error e => (Except.error e : Except String SM1)
    | Except.ok M3 => markSeeds M3 vs) = markSeeds M2 vs
  rw [h]

theorem markSeeds_cons_err (M : SM1) (v : List ℚ) (vs : List (List ℚ))
    (e : String) (h : M.markSafe v = .error e) :
    markSeeds M (v :: vs) = .error e := by
  show (match M.markSafe v with
    | Except.error e => (Except.error e : Except String SM1)
    | Except.ok M3 => markSeeds M3 vs) = Except.error e
  rw [h]

theorem markSeeds_isSome (n0 : ℕ) :
    ∀ (seeds : List (List ℚ)) (M : SM1), M.n = n0 →
      ((markSeeds M seeds).toOption.isSome = true
        ↔ ∀ v ∈ seeds, -(n0 : ℤ) ≤ nearestAxis n0 (v.getD 0 0)
            ∧ nearestAxis n0 (v.getD 0 0) < (n0 : ℤ)) := by
  intro seeds
  induction seeds with
  | nil =>
    intro M hn
    constructor
    · intro _ v hv
      exact absurd hv (List.not_mem_nil v)
    · intro _
      rfl
  | cons v vs ih =>
    intro M hn
    rw [List.forall_mem_cons]
    have hnv : M.nearest v = nearestAxis n0 (v.getD 0 0) := by
      show nearestAxis M.n (v.getD 0 0) = _
      rw [hn]
    by_cases hv : -(n0 : ℤ) ≤ nearestAxis n0 (v.getD 0 0)
        ∧ nearestAxis n0 (v.getD 0 0) < (n0 : ℤ)
    · obtain ⟨M2, hok, hM2n⟩ := markSafe_in M v (by rw [hnv, hn]; exact hv)
      rw [markSeeds_cons_ok M M2 v vs hok, ih M2 (hM2n.trans hn)]
      constructor
      · intro h
        exact ⟨hv, h⟩
      · intro h
        exact h.2
    · rw [markSeeds_cons_err M v vs _ (markSafe_out M v (by rw [hnv, hn]; exact hv))]
      constructor
      · intro h
        exact absurd h (by simp [Except.toOption])
      · intro h
        exact absurd h.1 hv

theorem mkAdvisor1_some {S H R : Type} (n : ℕ) (seeds : List (List ℚ))
    (lip thr : ℚ) (bs : ℕ → ℚ) (s0 : S) (h0 : H) (r0 : R) :
    mkAdvisor1 1 1 n (some seeds) lip thr bs s0 h0 r0
      = match markSeeds (mkM0 n) seeds with
        | .error e => .error e
        | .ok M1 =>
          .ok { sets := SMS.one M1
                threshold := thr
                lipschitz := lip
                beta_sqrt := bs
                surrogate := s0
                hist := h0
                to_eval := (M1.get_arrays).1
                current_turn := 0
                rng := r0 } := rfl

/-- C6 counterexample: construction with an empty (but present) seed list
succeeds — only a missing (None) seed set raises. -/
theorem claim_C6_counterexample :
    (mkAdvisor1 (S := Unit) (H := Unit) (R := Unit) 1 1 5 (some [])
        20 1 (fun _ => 1) () () ()).toOption.map
      (fun A => A.to_eval) = some [] := by with_unfolding_all decide

/-- C6 amended: with one objective and one constraint, construction fails
with the explicit seed-set error exactly when the seed set is absent
(None). A present seed list is accepted if and only if every seed's
unclamped nearest coordinate lies in NumPy's index range [-n, n) — the
marking write raises an IndexError otherwise — so in particular the empty
list is accepted (no safe cells, empty pending backlog), refuting the
claimed failure on empty seed sets. -/
theorem claim_C6_amended :
    (∀ (S H R : Type) (n : ℕ) (lip thr : ℚ) (bs : ℕ → ℚ)
       (s0 : S) (h0 : H) (r0 : R),
      mkAdvisor1 1 1 n none lip thr bs s0 h0 r0
        = .error "Seed set must not be None!") ∧
    (∀ (S H R : Type) (n : ℕ) (seeds : List (List ℚ)) (lip thr : ℚ)
       (bs : ℕ → ℚ) (s0 : S) (h0 : H) (r0 : R),
      (mkAdvisor1 1 1 n (some seeds) lip thr bs s0 h0 r0).toOption.isSome
          = true
        ↔ ∀ v ∈ seeds, -(n : ℤ) ≤ nearestAxis n (v.getD 0 0)
            ∧ nearestAxis n (v.getD 0 0) < (n : ℤ)) := by
  constructor
  · intro S H R n lip thr bs s0 h0 r0
    rfl
  · intro S H R n seeds lip thr bs s0 h0 r0
    have hiff := markSeeds_isSome n seeds (mkM0 n) rfl
    rw [mkAdvisor1_some]
    rcases hmk : markSeeds (mkM0 n) seeds with e | M1
    · rw [hmk] at hiff
      exact hiff
    · rw [hmk] at hiff
      exact hiff

/-- C7 counterexample: on a 1 x 1 x 2 grid the dim-3 `_presum` completes
normally (no unsupported-dimension error) and returns 0 at cell (0,0,1)
where the true 3-d prefix sum is 7 — it silently sums only the first two
axes; and the dim-3 `_add_range` fails with a generic tuple-unpacking
ValueError, not an unsupported-dimension error. -/
theorem claim_C7_counterexample :
    presum3 1 1 ex3 0 0 1 = 0 ∧ brute3 ex3 0 0 1 = 7 ∧
    addRangeElse 2 2 (fun _ _ => 0) [0, 0, 0] [1, 1, 1]
      = .error "ValueError: too many values to unpack" := by
  refine ⟨by with_unfolding_all decide, by with_unfolding_all decide, rfl⟩

/-- C7 amended: for grid dimensionality 3 (outside the supported 1, 2) no
explicit unsupported-dimension error is raised: `_presum` silently
prefix-sums only the first two axes, and `_add_range` crashes with a
generic tuple-unpacking ValueError at set-update time. -/
theorem claim_C7_amended :
    (∀ (n0 n1 : ℕ) (f : ℕ → ℕ → ℕ → ℤ) (i j k : ℕ), i < n0 → j < n1 →
      presum3 n0 n1 f i j k
        = ∑ a ∈ Finset.range (i + 1), ∑ b ∈ Finset.range (j + 1), f a b k) ∧
    (∀ (n0 n1 : ℕ) (f : ℕ → ℕ → ℤ) (a b c d e g : ℕ),
      addRangeElse n0 n1 f [a, b, c] [d, e, g]
        = .error "ValueError: too many values to unpack") :=
  ⟨presum3_eq, fun _ _ _ _ _ _ _ _ _ => rfl⟩

theorem claim_C7_amended_witness :
    presum3 2 2 ex3 1 1 0
      = ∑ a ∈ Finset.range 2, ∑ b ∈ Finset.range 2, ex3 a b 0 :=
  claim_C7_amended.1 2 2 ex3 1 1 0 (by with_unfolding_all decide) (by with_unfolding_all decide)

/-- C8: the code aliases temp to vis_set in fallback (b) of
get_suggestion, so the dilation mutates the visited mask in place. On the
concrete advisor A8 (grid size 5, cell 1 safe and visited, zero slack so
all earlier branches yield nothing), get_suggestion succeeds and leaves
vis_set = (true, true, true, false, false): cells 0 and 2 were never
evaluated yet became visited, refuting the frame property the spec
states. -/
theorem claim_C8 :
    (getSuggestion Oex A8).toOption.map
        (fun q => match q.2.sets with
          | SMS.one M =>
              (M.vis_set 0, M.vis_set 1, M.vis_set 2, M.vis_set 3, M.vis_set 4)
          | SMS.two _ => (false, false, false, false, false))
      = some (true, true, true, false, false) ∧
    Mex.vis_set 0 = false ∧ Mex.vis_set 2 = false := by with_unfolding_all decide

/-- C9: get_suggestion is idempotent: with a pending configuration it
returns it unchanged together with the unchanged state; and whatever a
successful call returns, an immediately repeated call returns the
identical configuration and the identical advisor state. -/
theorem claim_C9 :
    (∀ (S H R T : Type) (O : Oracle S H R T) (A : Advisor S H R)
       (c : List ℚ) (cs : List (List ℚ)), A.to_eval = c :: cs →
       getSuggestion O A = .ok (c, A)) ∧
    (∀ (S H R T : Type) (O : Oracle S H R T) (A A2 : Advisor S H R)
       (c : List ℚ), getSuggestion O A = .ok (c, A2) →
       getSuggestion O A2 = .ok (c, A2)) := by
  constructor
  · intro S H R T O A c cs h
    exact getSuggestion_pending O A c cs h
  · intro S H R T O A A2 c h
    rcases getSuggestion_cases O A c A2 h with ⟨rfl, cs, hte⟩ | hte
    · exact getSuggestion_pending O A2 c cs hte
    · exact getSuggestion_pending O A2 c [] hte

theorem claim_C9_witness :
    getSuggestion Oex Aex = .ok ([1 / 2], Aex) :=
  claim_C9.2 Unit Unit Unit Unit Oex Aex Aex [1 / 2]
    (claim_C9.1 Unit Unit Unit Unit Oex Aex [1 / 2] [] rfl)

/-- C10: an observation whose configuration is not pending raises no
error and leaves the pending list, the grid state and all other advisor
state unchanged; and in every case the constraint field is cleared, the
observation is forwarded to the history store and the store's result is
returned unchanged. -/
theorem claim_C10 :
    (∀ (S H R T : Type) (O : Oracle S H R T) (A : Advisor S H R) (obs : Obs),
      obs.config ∉ A.to_eval →
        (updateObservation O A obs).2.to_eval = A.to_eval ∧
        (updateObservation O A obs).2.sets = A.sets ∧
        (updateObservation O A obs).2.surrogate = A.surrogate ∧
        (updateObservation O A obs).2.current_turn = A.current_turn ∧
        (updateObservation O A obs).2.rng = A.rng) ∧
    (∀ (S H R T : Type) (O : Oracle S H R T) (A : Advisor S H R) (obs : Obs),
      (updateObservation O A obs).1
        = (O.histUpd A.hist { obs with constraints := none }).1 ∧
      (updateObservation O A obs).2.hist
        = (O.histUpd A.hist { obs with constraints := none }).2) := by
  constructor
  · intro S H R T O A obs h
    obtain ⟨h1, h2, -, -, h5, h6, h7⟩ := updateObservation_stale O A obs h
    exact ⟨h1, h2, h5, h6, h7⟩
  · intro S H R T O A obs
    exact updateObservation_forwards O A obs

theorem claim_C10_witness :
    (updateObservation Oex Aex obsEx).2.to_eval = Aex.to_eval ∧
    (updateObservation Oex Aex obsEx).2.sets = Aex.sets :=
  ⟨(claim_C10.1 Unit Unit Unit Unit Oex Aex obsEx (by with_unfolding_all decide)).1,
   (claim_C10.1 Unit Unit Unit Unit Oex Aex obsEx (by with_unfolding_all decide)).2.1⟩

end SafeOptModel
